import Mathlib

/-!
Verification development for the Game-Launcher Raycast extension.

The definitions below are a shallow embedding of the TypeScript source:
each sync engine's pure logic is translated into Lean functions, and the
host environment (filesystem, Windows registry, locale services) is
threaded explicitly as a `World` of lookup functions.  JavaScript-specific
semantics (truthiness, `parseInt`, `||` defaulting, first-occurrence
`String.replace`) are modelled by dedicated helpers.
-/

set_option maxHeartbeats 1000000
set_option maxRecDepth 10000

/-! ## JavaScript string/number semantics helpers -/

/-- Whitespace as used by the JS regex class `\s` (ASCII subset; the source
only ever meets ASCII whitespace in the data it scans). -/
def jsIsWs (c : Char) : Bool := c.isWhitespace

/-- Substring test on character lists: `pat` occurs somewhere inside `s`
(JS `String.prototype.includes`). -/
def containsSubL (s pat : List Char) : Bool :=
  match s with
  | [] => pat.isEmpty
  | _ :: t => pat.isPrefixOf s || containsSubL t pat

/-- JS `s.includes(sub)`. -/
def jsIncludes (s sub : String) : Bool := containsSubL s.data sub.data

/-- JS `s.endsWith(suffix)`. -/
def jsEndsWith (s suffix : String) : Bool := suffix.data.isSuffixOf s.data

/-- JS `s.startsWith(prefix)`. -/
def jsStartsWith (s pre : String) : Bool := pre.data.isPrefixOf s.data

/-- Digits of a decimal numeral folded into a natural number. -/
def natOfDigits (ds : List Char) : Nat :=
  ds.foldl (fun acc c => acc * 10 + (c.toNat - '0'.toNat)) 0

/-- Digits of a hexadecimal numeral folded into a natural number. -/
def natOfHexDigits (ds : List Char) : Nat :=
  ds.foldl (fun acc c =>
    acc * 16 +
      (if c.isDigit then c.toNat - '0'.toNat
       else if 'a' ≤ c ∧ c ≤ 'f' then c.toNat - 'a'.toNat + 10
       else c.toNat - 'A'.toNat + 10)) 0

/-- Is `c` a hexadecimal digit? -/
def isHexDigitCh (c : Char) : Bool :=
  c.isDigit || ('a' ≤ c && c ≤ 'f') || ('A' ≤ c && c ≤ 'F')

/-- JS `parseInt(s)` (radix unspecified): skip leading whitespace, optional
sign, then either a `0x`/`0X` hexadecimal numeral or a maximal run of
decimal digits; `none` models `NaN`. -/
def jsParseInt (s : String) : Option Int :=
  let cs := s.data.dropWhile jsIsWs
  let (sign, cs) : Int × List Char :=
    match cs with
    | '+' :: r => (1, r)
    | '-' :: r => (-1, r)
    | r => (1, r)
  match cs with
  | '0' :: 'x' :: r =>
    let ds := r.takeWhile isHexDigitCh
    if ds.isEmpty then none else some (sign * (natOfHexDigits ds : Int))
  | '0' :: 'X' :: r =>
    let ds := r.takeWhile isHexDigitCh
    if ds.isEmpty then none else some (sign * (natOfHexDigits ds : Int))
  | r =>
    let ds := r.takeWhile Char.isDigit
    if ds.isEmpty then none else some (sign * (natOfDigits ds : Int))

/-- JS truthiness of a `string | undefined` value. -/
def jsTruthyStr (o : Option String) : Bool :=
  match o with
  | some s => s ≠ ""
  | none => false

/-- JS `a || b` for a `string | undefined` left operand and string default. -/
def jsOrStr (o : Option String) (d : String) : String :=
  match o with
  | some s => if s = "" then d else s
  | none => d

/-- JS `a || b` where both operands are `string | undefined`. -/
def jsOrOpt (o : Option String) (d : Option String) : Option String :=
  match o with
  | some s => if s = "" then d else some s
  | none => d

/-- JS `a || b` for a `boolean | undefined` left operand. -/
def jsTruthyBoolOpt (o : Option Bool) : Bool :=
  match o with
  | some b => b
  | none => false

/-- Splitting at maximal runs of separator characters, as JS
`String.prototype.split` with a `/[...]+/` regex: a leading or trailing
separator run produces an empty field. -/
def jsSplitRunsGo (p : Char → Bool) (inSep : Bool) (cur : List Char) :
    List Char → List (List Char)
  | [] => [cur.reverse]
  | c :: rest =>
    if p c then
      if inSep then jsSplitRunsGo p true cur rest
      else cur.reverse :: jsSplitRunsGo p true [] rest
    else jsSplitRunsGo p false (c :: cur) rest

/-- JS `s.split(/[...]+/)` for a character-class regex. -/
def jsSplitRuns (p : Char → Bool) (s : String) : List String :=
  (jsSplitRunsGo p false [] s.data).map String.mk

/-- Splitting on a single separator character (JS `s.split(sep)`). -/
def splitListOn (sep : Char) : List Char → List (List Char)
  | [] => [[]]
  | c :: rest =>
    if c = sep then [] :: splitListOn sep rest
    else
      match splitListOn sep rest with
      | h :: t => (c :: h) :: t
      | [] => [[c]]

/-- JS `s.split(sep)` for a one-character separator string. -/
def jsSplitOnChar (sep : Char) (s : String) : List String :=
  (splitListOn sep s.data).map String.mk

/-- JS `s.toLowerCase()` (ASCII case mapping, which is all the source
compares). -/
def jsToLower (s : String) : String := String.mk (s.data.map Char.toLower)

/-- JS `s.trim()`. -/
def jsTrim (s : String) : String :=
  String.mk (((s.data.dropWhile jsIsWs).reverse.dropWhile jsIsWs).reverse)

/-! ## The host environment

Every effectful host call the scanners make — `existsSync`, `readFileSync`,
`readdirSync`, `reg query`, locale date formatting — is modelled as a field
of `World`.  A `none`/`false` result models both "not found" and a thrown
error that the source catches locally. -/

structure World where
  existsSync : String → Bool
  readFileSync : String → Option String
  readdirSync : String → Option (List String)
  regQueryValue : String → String → Option String
  toLocaleDateString : String → String
  toLocaleString : String → String

/-- Node `path.join` on Windows for the already-normalized segment pairs the
source joins (no `.`/`..` segments occur in them). -/
def joinPath (a b : String) : String := a ++ "\\" ++ b

/-! ## The canonical `Game` record (src/platforms/interfaces.ts),
including the optional enrichment fields the Playnite and Xbox engines
fill in.  The `runTask` closure field is an IO callback and carries no
data, so it is not part of the embedding. -/

structure Game where
  id : String
  title : String
  platform : String
  iconPath : Option String := none
  launchCommand : String
  uninstallCommand : Option String := none
  description : Option String := none
  source : Option String := none
  developers : Option (List String) := none
  publishers : Option (List String) := none
  genres : Option (List String) := none
  releaseDate : Option String := none
  lastActivity : Option String := none
  favorite : Option Bool := none
  added : Option String := none
  coverImage : Option String := none
deriving DecidableEq, Repr

/-! ## Icon resolver (src/utils/IconUtils.ts) -/

/-- `getGameIcon`: the executable path itself if it exists, else no icon. -/
def getGameIcon (w : World) (executablePath : Option String) : Option String :=
  match executablePath with
  | none => none
  | some p =>
    if p = "" then none
    else if w.existsSync p then some p
    else none

/-! ## Steam sync engine (src/platforms/steam/SteamSyncEngine.ts) -/

structure SteamAppManifest where
  appid : String
  name : String
  StateFlags : String
  installdir : String
  LastUpdated : String
  SizeOnDisk : String
deriving DecidableEq, Repr

/-- Case-insensitive match of `key` against a prefix of `cs`, returning the
rest (the `i` flag of the VDF extraction regex). -/
def stripPrefixCI : List Char → List Char → Option (List Char)
  | [], s => some s
  | _, [] => none
  | k :: ks, c :: cs => if k.toLower = c.toLower then stripPrefixCI ks cs else none

/-- One attempt of the regex `"key"\s+"([^"]*)"` (case-insensitive) anchored
at the head of `cs`; returns the captured value characters. -/
def matchVdfAt (key : List Char) (cs : List Char) : Option (List Char) :=
  match cs with
  | '"' :: rest =>
    match stripPrefixCI key rest with
    | some ('"' :: rest2) =>
      let ws := rest2.takeWhile jsIsWs
      let rest3 := rest2.dropWhile jsIsWs
      if ws.isEmpty then none
      else
        match rest3 with
        | '"' :: rest4 =>
          let v := rest4.takeWhile (· ≠ '"')
          match rest4.dropWhile (· ≠ '"') with
          | '"' :: _ => some v
          | _ => none
        | _ => none
    | _ => none
  | _ => none

/-- Leftmost match of the VDF key/value regex over the whole content. -/
def extractVdfValueGo (key : List Char) : List Char → Option (List Char)
  | [] => none
  | c :: rest =>
    match matchVdfAt key (c :: rest) with
    | some v => some v
    | none => extractVdfValueGo key rest

/-- `extractVdfValue`: first value captured for `key` in `content`. -/
def extractVdfValue (content key : String) : Option String :=
  (extractVdfValueGo key.data content.data).map String.mk

/-- `parseAppManifest` applied to the file content (`none` content models a
failed read, caught in the source). -/
def parseAppManifest (content : Option String) : Option SteamAppManifest :=
  match content with
  | none => none
  | some content =>
    let appid := extractVdfValue content "appid"
    let name := extractVdfValue content "name"
    if jsTruthyStr appid ∧ jsTruthyStr name then
      some
        { appid := appid.getD ""
          name := name.getD ""
          StateFlags := jsOrStr (extractVdfValue content "StateFlags") "0"
          installdir := jsOrStr (extractVdfValue content "installdir") ""
          LastUpdated := jsOrStr (extractVdfValue content "LastUpdated") "0"
          SizeOnDisk := jsOrStr (extractVdfValue content "SizeOnDisk") "0" }
    else none

/-- JS `x & 4` after `ToInt32` coercion, tested against zero. -/
def int32BitFourSet (x : Int) : Bool := ((x % 4294967296).toNat &&& 4) ≠ 0

/-- `isGameInstalled`: `(parseInt(StateFlags) || 0) & 4` is nonzero. -/
def isGameInstalled (m : SteamAppManifest) : Bool :=
  int32BitFourSet ((jsParseInt m.StateFlags).getD 0)

def steamExcludeNames : List String :=
  ["Steamworks Common Redistributables", "Steam Linux Runtime", "Proton",
   "DirectX", "Visual C++", "Microsoft Visual C++", ".NET Framework",
   "Common Redistributables"]

/-- `isActualGame`: the lowercased name contains no denylisted substring. -/
def isActualGame (m : SteamAppManifest) : Bool :=
  let gameName := jsToLower m.name
  !(steamExcludeNames.any fun ex => jsIncludes gameName (jsToLower ex))

/-- Inner loop of `getSteamGameExecutable`: first exe whose lowercased name
contains a (length > 2) token of the game name. -/
def findWordExe : List String → List String → Option String
  | [], _ => none
  | word :: ws, exeFiles =>
    match exeFiles.find? (fun exe => jsIncludes (jsToLower exe) word ∧ word.length > 2) with
    | some e => some e
    | none => findWordExe ws exeFiles

/-- `getSteamGameExecutable`. -/
def getSteamGameExecutable (w : World) (steamPath : String) (m : SteamAppManifest) :
    Option String :=
  if m.installdir = "" then none
  else
    let gameInstallPath := joinPath (joinPath (joinPath steamPath "steamapps") "common") m.installdir
    if w.existsSync gameInstallPath then
      match w.readdirSync gameInstallPath with
      | none => none
      | some files =>
        let gameNameWords := jsSplitRuns (fun c => jsIsWs c || c = '-' || c = '_') (jsToLower m.name)
        let exeFiles := files.filter (fun f => jsEndsWith (jsToLower f) ".exe")
        match findWordExe gameNameWords exeFiles with
        | some exe => some (joinPath gameInstallPath exe)
        | none =>
          match exeFiles with
          | e :: _ => some (joinPath gameInstallPath e)
          | [] => none
    else none

/-- `createGameFromManifest`. -/
def createGameFromManifest (w : World) (steamPath : String) (m : SteamAppManifest) : Game :=
  let regIcon :=
    (w.regQueryValue
      ("HKEY_LOCAL_MACHINE\\SOFTWARE\\Microsoft\\Windows\\CurrentVersion\\Uninstall\\Steam App "
        ++ m.appid) "DisplayIcon").map jsTrim
  let iconPath :=
    match regIcon with
    | some i => if i = "" then getGameIcon w (getSteamGameExecutable w steamPath m) else some i
    | none => getGameIcon w (getSteamGameExecutable w steamPath m)
  { id := "steam-" ++ m.appid
    title := m.name
    platform := "Steam"
    iconPath := iconPath
    launchCommand := "steam://launch/" ++ m.appid
    uninstallCommand := some ("steam://uninstall/" ++ m.appid) }

/-- The manifest loop of `scanLibraryFolder` over the contents of the
`appmanifest_*.acf` files of one library folder, threading the
`seenAppIds` set. -/
def scanLibraryFolder (w : World) (steamPath : String) :
    List (Option String) → List String → List Game × List String
  | [], seen => ([], seen)
  | c :: rest, seen =>
    match parseAppManifest c with
    | some m =>
      if isGameInstalled m ∧ isActualGame m then
        if seen.contains m.appid then scanLibraryFolder w steamPath rest seen
        else
          let r := scanLibraryFolder w steamPath rest (m.appid :: seen)
          (createGameFromManifest w steamPath m :: r.1, r.2)
      else scanLibraryFolder w steamPath rest seen
    | none => scanLibraryFolder w steamPath rest seen

/-- The library-folder loop of `findAllGames` (step 4): games of all
folders concatenated, one `seenAppIds` set threaded through. -/
def steamFindAllGames (w : World) (steamPath : String)
    (libraries : List (List (Option String))) : List Game :=
  (libraries.foldl
    (fun (acc : List Game × List String) lib =>
      let r := scanLibraryFolder w steamPath lib acc.2
      (acc.1 ++ r.1, r.2))
    ([], [])).1

/-! ## Aggregator and dispatcher (src/launch-game.tsx) -/

/-- One engine's run in a scan cycle: its display name and either the games
its `SynchronizeGames` produced or a thrown error (caught by `loadGames`). -/
structure SyncEngineRun where
  PlatformName : String
  outcome : Except Unit (List Game)

/-- The synchronize loop of `loadGames`: every successful engine's games
are appended, a throwing engine only produces a failure toast. -/
def mergeGames : List SyncEngineRun → List Game
  | [] => []
  | e :: engines =>
    (match e.outcome with
     | .ok gs => gs
     | .error _ => []) ++ mergeGames engines

/-- The `platformOrder` table of the `platform` sort policy. -/
def platformOrderLookup (p : String) : Option Nat :=
  if p = "Steam" then some 1
  else if p = "Epic Games" then some 2
  else if p = "GOG" then some 3
  else if p = "Xbox" then some 4
  else if p = "Playnite" then some 5
  else none

/-- `platformOrder[x] || 999`. -/
def platformOrderKey (p : String) : Nat := (platformOrderLookup p).getD 999

/-- The sort switch of `loadGames`.  JS `Array.prototype.sort` is a stable
sort and is modelled by `List.mergeSort`; the `alphabetical` policy's
collation (`localeCompare`) is host/locale defined and is therefore a
parameter `lc`. -/
def sortGames (lc : String → String → Int) (sortOrder : String) (games : List Game) :
    List Game :=
  if sortOrder = "alphabetical" then
    games.mergeSort (fun a b => lc a.title b.title ≤ 0)
  else if sortOrder = "platform" then
    games.mergeSort (fun a b => platformOrderKey a.platform ≤ platformOrderKey b.platform)
  else games

/-- `loadGames`: merge the engine outcomes, then apply the ordering policy. -/
def loadGamesResult (lc : String → String → Int) (sortOrder : String)
    (engines : List SyncEngineRun) : List Game :=
  sortGames lc sortOrder (mergeGames engines)

inductive ToastStyle where
  | success
  | failure
deriving DecidableEq, Repr

structure ToastMsg where
  style : ToastStyle
  title : String
  message : String
deriving DecidableEq, Repr

/-- Observable effects of one dispatcher invocation: the shell commands it
hands to `exec`, and the toasts it shows. -/
structure DispatchResult where
  shellInvocations : List String
  toasts : List ToastMsg
deriving DecidableEq, Repr

/-- `uninstallGame`.  `execOk` tells whether the host `exec` succeeds. -/
def uninstallGame (execOk : Bool) (game : Game) : DispatchResult :=
  if jsTruthyStr game.uninstallCommand then
    let cmd := game.uninstallCommand.getD ""
    let inv := "start \"\" \"" ++ cmd ++ "\""
    if execOk then
      { shellInvocations := [inv]
        toasts := [⟨.success, "Uninstall started", "Started uninstall for " ++ game.title⟩] }
    else
      { shellInvocations := [inv]
        toasts := [⟨.failure, "Uninstall failed", "Failed to uninstall " ++ game.title⟩] }
  else
    { shellInvocations := []
      toasts := [⟨.failure, "Uninstall not available",
        game.title ++ " cannot be uninstalled from here"⟩] }

/-! ## GOG sync engine (src/platforms/gog/GOGSyncEngine.ts) -/

structure GOGGame where
  id : String
  name : String
  path : String
  buildId : Option String := none
  iconPath : Option String := none
deriving DecidableEq

structure GOGGalaxyClient where
  exePath : String
  iconPath : String
deriving DecidableEq

/-- `mapGOGGameToGame`. -/
def mapGOGGameToGame (gogGame : GOGGame) (_gogClient : GOGGalaxyClient) : Game :=
  { id := "gog-" ++ gogGame.id
    title := gogGame.name
    platform := "GOG Galaxy"
    iconPath := gogGame.iconPath
    launchCommand :=
      "/command=runGame /gameId=" ++ (gogGame.id ++ (" /path=\"" ++ (gogGame.path ++ "\"")))
    uninstallCommand := some ("goggalaxy://openGameView/" ++ gogGame.id) }

/-- `GOGSyncEngine.SynchronizeGames`: empty when no Galaxy client is found,
else every discovered registry game mapped. -/
def gogSynchronizeGames (gogClient : Option GOGGalaxyClient) (gogGames : List GOGGame) :
    List Game :=
  match gogClient with
  | none => []
  | some c => gogGames.map (fun g => mapGOGGameToGame g c)

/-! ## EA app sync engine (EaAppSyncEngine, in the shortcuts source file) -/

structure EaGame where
  id : String
  title : String
  installPath : Option String := none
  iconPath : Option String := none
  uninstallString : Option String := none
  executablePath : Option String := none
deriving DecidableEq

/-- `mapEaGameToGame`.  The launch command is
`eaGame.executablePath || `"${eaGame.executablePath}"``: a truthy path is
used as is; `undefined` (and the falsy empty string) fall back to the
template-literal string, which quotes the JS coercion of the value. -/
def mapEaGameToGame (eaGame : EaGame) : Game :=
  { id := "ea-" ++ eaGame.id
    title := eaGame.title
    platform := "EA app"
    iconPath := eaGame.iconPath
    launchCommand :=
      match eaGame.executablePath with
      | some p => if p = "" then "\"\"" else p
      | none => "\"undefined\""
    uninstallCommand := eaGame.uninstallString }

/-- `EaAppSyncEngine.SynchronizeGames`. -/
def eaSynchronizeGames (eaGames : List EaGame) : List Game :=
  eaGames.map mapEaGameToGame

/-! ## Ubisoft sync engine (UbisoftSyncEngine, in the playnite source file) -/

structure UbisoftGame where
  id : String
  title : String
  installPath : Option String := none
  iconPath : Option String := none
  uninstallString : Option String := none
deriving DecidableEq

/-- `mapUbisoftGameToGame`. -/
def mapUbisoftGameToGame (ubisoftGame : UbisoftGame) : Game :=
  { id := "ubisoft-" ++ ubisoftGame.id
    title := ubisoftGame.title
    platform := "Ubisoft Connect"
    iconPath := ubisoftGame.iconPath
    launchCommand := "uplay://launch/" ++ (ubisoftGame.id ++ "/0")
    uninstallCommand := ubisoftGame.uninstallString }

/-- `UbisoftSyncEngine.SynchronizeGames`. -/
def ubisoftSynchronizeGames (ubisoftGames : List UbisoftGame) : List Game :=
  ubisoftGames.map mapUbisoftGameToGame

/-! ## Playnite sync engine (src/platforms/playnite/PlayniteSyncEngine.ts) -/

/-- A record of the exported `playnite-raycast-library.json` snapshot,
with the fields the engine reads (declared types of
`PlayniteRaycastGame`). -/
structure PlayniteRaycastGame where
  Id : String
  Name : String
  Source : Option String := none
  ReleaseDate : Option String := none
  Added : Option String := none
  LastActivity : Option String := none
  IsInstalled : Bool
  Hidden : Option Bool := none
  Favorite : Option Bool := none
  Genres : Option (List String) := none
  Developers : Option (List String) := none
  Publishers : Option (List String) := none
  Description : Option String := none
  CoverImage : Option String := none
  Icon : Option String := none
deriving DecidableEq

/-- A record of an individual Playnite per-game JSON file (`PlayniteGame`),
with the fields the fallback branch reads. -/
structure PlayniteGame where
  Id : String
  Name : String
  Icon : Option String := none
  SourceName : Option String := none
  IsInstalled : Bool
deriving DecidableEq

/-- `getIconPath` / the snapshot branch's icon resolution: the media file
under `library/files` if it exists. -/
def playniteIconPath (w : World) (dataPath : String) (iconId : Option String) :
    Option String :=
  match iconId with
  | none => none
  | some i =>
    if i = "" then none
    else
      let mediaPath := joinPath (joinPath (joinPath dataPath "library") "files") i
      if w.existsSync mediaPath then some mediaPath else none

/-- The snapshot branch of `PlayniteSyncEngine.SynchronizeGames` (v2 engine):
installed, non-hidden entries of the exported library, mapped. -/
def playniteSyncFromSnapshot (w : World) (dataPath : String)
    (libraryData : List PlayniteRaycastGame) : List Game :=
  libraryData.filterMap fun gameData =>
    if !gameData.IsInstalled || jsTruthyBoolOpt gameData.Hidden then none
    else
      some
        { id := gameData.Id
          title := gameData.Name
          platform := "Playnite" ++
            (if jsTruthyStr gameData.Source then " (" ++ gameData.Source.getD "" ++ ")" else "")
          iconPath := playniteIconPath w dataPath gameData.Icon
          launchCommand := "playnite://playnite/start/" ++ gameData.Id
          description := gameData.Description
          source := gameData.Source
          developers := gameData.Developers
          publishers := gameData.Publishers
          genres := gameData.Genres
          releaseDate := gameData.ReleaseDate
          lastActivity := gameData.LastActivity
          favorite := gameData.Favorite
          added := gameData.Added
          coverImage := playniteIconPath w dataPath gameData.CoverImage }

/-- The fallback branch over the per-game JSON store: each element is the
parse result of one `.json` file (`none` models a parse error, caught and
skipped); installed entries are mapped. -/
def playniteSyncFromFiles (w : World) (dataPath : String)
    (gameFiles : List (Option PlayniteGame)) : List Game :=
  gameFiles.filterMap fun parsed =>
    match parsed with
    | none => none
    | some gameData =>
      if !gameData.IsInstalled then none
      else
        some
          { id := gameData.Id
            title := gameData.Name
            platform := "Playnite" ++
              (if jsTruthyStr gameData.SourceName then
                " (" ++ gameData.SourceName.getD "" ++ ")" else "")
            iconPath := playniteIconPath w dataPath gameData.Icon
            launchCommand := "playnite://playnite/start/" ++ gameData.Id }

/-! ## Xbox sync engine (src/platforms/xbox/XboxSyncEngine.ts) -/

structure UWPApp where
  Name : String
  PackageFamilyName : String
  InstallLocation : String
deriving DecidableEq

/-- Cached per-package store details (`xbox-game-details` cache entries). -/
structure XboxGameDetails where
  name : Option String := none
  displayImage : Option String := none
  description : Option String := none
  developerName : Option String := none
  publisherName : Option String := none
  genres : Option (List String) := none
  releaseDate : Option String := none
  lastTimePlayed : Option String := none
deriving DecidableEq

/-- `cleanGameName`. -/
def cleanGameName (packageName : String) : String :=
  let s := packageName
  let s := if jsStartsWith s "Microsoft." then s.drop "Microsoft.".length else s
  let s := if jsStartsWith s "Xbox." then s.drop "Xbox.".length else s
  let s := if jsEndsWith s "Game" then s.dropRight "Game".length else s
  let s := if jsEndsWith s "App" then s.dropRight "App".length else s
  let s := String.mk (s.data.map fun c => if c = '.' then ' ' else c)
  let s := jsTrim s
  let words := jsSplitOnChar ' ' s
  let capped := words.map fun word =>
    String.mk
      (match word.data with
       | [] => []
       | c :: rest => c.toUpper :: (rest.map Char.toLower))
  String.intercalate " " capped

/-- The Start-Apps map lookup of `createLaunchCommand`. -/
def startAppsGet (startAppsMap : List (String × String)) (pfn : String) : Option String :=
  (startAppsMap.find? (fun e => e.1 = pfn)).map Prod.snd

/-- `createLaunchCommand`. -/
def createLaunchCommand (packageFamilyName : String)
    (startAppsMap : List (String × String)) : String :=
  match startAppsGet startAppsMap packageFamilyName with
  | some fullAppId => "shell:AppsFolder\\" ++ fullAppId
  | none => "shell:AppsFolder\\" ++ (packageFamilyName ++ "!App")

def xboxIconFiles : List String :=
  ["Square44x44Logo.png", "Square150x150Logo.png", "Square310x310Logo.png",
   "StoreLogo.png", "ApplicationIcon.png", "Icon.png"]

/-- `XboxSyncEngine.getGameIcon`: first conventional icon file found in the
install location or its `Assets` subfolder. -/
def xboxGetGameIcon (w : World) (installLocation : String) : Option String :=
  if installLocation = "" ∨ !w.existsSync installLocation then none
  else
    (xboxIconFiles.firstM fun iconFile =>
      let iconPath := joinPath installLocation iconFile
      if w.existsSync iconPath then some iconPath
      else
        let assetsIconPath := joinPath (joinPath installLocation "Assets") iconFile
        if w.existsSync assetsIconPath then some assetsIconPath else none)

/-- The record one owned, locally installed UWP app is mapped to. -/
def xboxMapGame (w : World) (app : UWPApp) (details : Option XboxGameDetails)
    (startAppsMap : List (String × String)) : Game :=
  { id := app.PackageFamilyName
    title := jsOrStr (details.bind (·.name)) (cleanGameName app.Name)
    platform := "Xbox"
    launchCommand := createLaunchCommand app.PackageFamilyName startAppsMap
    iconPath := jsOrOpt (details.bind (·.displayImage)) (xboxGetGameIcon w app.InstallLocation)
    description := some (jsOrStr (details.bind (·.description)) "")
    developers := (details.bind (·.developerName)).map (fun d => [d])
    publishers := (details.bind (·.publisherName)).map (fun p => [p])
    genres :=
      match details.bind (·.genres) with
      | some gs => if gs.length > 0 then some gs else none
      | none => none
    releaseDate := (details.bind (·.releaseDate)).bind
      (fun d => if d = "" then none else some (w.toLocaleDateString d))
    lastActivity := (details.bind (·.lastTimePlayed)).bind
      (fun d => if d = "" then none else some (w.toLocaleString d))
    source := some "Xbox Store" }

/-- `XboxSyncEngine.SynchronizeGames` as a function of the local UWP app
list, the cached owned-entitlement list (`none` models a missing or
unreadable cache), the cached details table and the Start-Apps map. -/
def xboxSynchronizeGames (w : World) (localApps : List UWPApp)
    (ownedCache : Option (List String)) (gameDetails : String → Option XboxGameDetails)
    (startAppsMap : List (String × String)) : List Game :=
  match ownedCache with
  | none => []
  | some ownedGames =>
    if ownedGames.isEmpty then []
    else
      localApps.filterMap fun app =>
        if ownedGames.contains app.PackageFamilyName then
          some (xboxMapGame w app (gameDetails app.PackageFamilyName) startAppsMap)
        else none

/-! ## Epic Games sync engine (EpicSyncEngine, in the shortcuts source file)

`JSON.parse` is modelled by a fuel-based recursive-descent parser over the
character list; the repair heuristics of `fixMalformedJson` are modelled as
left-to-right scans equivalent to the global regex replacements of the
source. -/

/-- JSON values.  A number is kept as its validated lexeme (the manifests
only carry integers, and no claim depends on numeric value beyond
zero-ness). -/
inductive Json where
  | null
  | bool (b : Bool)
  | num (lex : String)
  | str (s : String)
  | arr (elems : List Json)
  | obj (fields : List (String × Json))

/-- JSON (RFC 8259) whitespace. -/
def jsonSkipWs (cs : List Char) : List Char :=
  cs.dropWhile (fun c => c = ' ' || c = '\t' || c = '\n' || c = '\r')

/-- String body after the opening quote: content characters and the rest
after the closing quote. -/
def parseStrBody : Nat → List Char → Option (List Char × List Char)
  | 0, _ => none
  | _, [] => none
  | fuel + 1, c :: r =>
    if c = '"' then some ([], r)
    else if c = '\\' then
      match r with
      | [] => none
      | e :: r2 =>
        let esc : Option (Char × List Char) :=
          if e = '"' then some ('"', r2)
          else if e = '\\' then some ('\\', r2)
          else if e = '/' then some ('/', r2)
          else if e = 'b' then some ('\x08', r2)
          else if e = 'f' then some ('\x0c', r2)
          else if e = 'n' then some ('\n', r2)
          else if e = 'r' then some ('\r', r2)
          else if e = 't' then some ('\t', r2)
          else if e = 'u' then
            match r2 with
            | h1 :: h2 :: h3 :: h4 :: r3 =>
              if isHexDigitCh h1 && isHexDigitCh h2 && isHexDigitCh h3 && isHexDigitCh h4 then
                some (Char.ofNat (natOfHexDigits [h1, h2, h3, h4]), r3)
              else none
            | _ => none
          else none
        match esc with
        | some (ch, r') => (parseStrBody fuel r').map (fun p => (ch :: p.1, p.2))
        | none => none
    else if c.toNat < 32 then none
    else (parseStrBody fuel r).map (fun p => (c :: p.1, p.2))

/-- A JSON number lexeme: `-? int frac? exp?`. -/
def parseNumLex (cs : List Char) : Option (List Char × List Char) :=
  let (sign, cs1) : List Char × List Char :=
    match cs with
    | '-' :: r => (['-'], r)
    | r => ([], r)
  let intDigits := cs1.takeWhile Char.isDigit
  let cs2 := cs1.dropWhile Char.isDigit
  if intDigits.isEmpty then none
  else if intDigits.length > 1 ∧ intDigits.head? = some '0' then none
  else
    let (fracPart, cs3) : List Char × List Char :=
      match cs2 with
      | '.' :: r =>
        let ds := r.takeWhile Char.isDigit
        if ds.isEmpty then ([], cs2) else ('.' :: ds, r.dropWhile Char.isDigit)
      | _ => ([], cs2)
    if fracPart.isEmpty ∧ cs2.head? = some '.' then none
    else
      let (expPart, cs4) : List Char × List Char :=
        match cs3 with
        | e :: r =>
          if e = 'e' ∨ e = 'E' then
            let (sg, r2) : List Char × List Char :=
              match r with
              | '+' :: r' => (['+'], r')
              | '-' :: r' => (['-'], r')
              | r' => ([], r')
            let ds := r2.takeWhile Char.isDigit
            if ds.isEmpty then ([], cs3) else (e :: sg ++ ds, r2.dropWhile Char.isDigit)
          else ([], cs3)
        | [] => ([], cs3)
      some (sign ++ intDigits ++ fracPart ++ expPart, cs4)

mutual

/-- One JSON value, leading whitespace allowed. -/
def parseJsonVal : Nat → List Char → Option (Json × List Char)
  | 0, _ => none
  | fuel + 1, cs =>
    match jsonSkipWs cs with
    | [] => none
    | c :: r =>
      if c = '"' then (parseStrBody fuel r).map (fun p => (.str (String.mk p.1), p.2))
      else if c = '\x7b' then
        match jsonSkipWs r with
        | '\x7d' :: r2 => some (.obj [], r2)
        | r2 => parseObjRest fuel r2 []
      else if c = '[' then
        match jsonSkipWs r with
        | ']' :: r2 => some (.arr [], r2)
        | r2 => parseArrRest fuel r2 []
      else
        match c :: r with
        | 't' :: 'r' :: 'u' :: 'e' :: r2 => some (.bool true, r2)
        | 'f' :: 'a' :: 'l' :: 's' :: 'e' :: r2 => some (.bool false, r2)
        | 'n' :: 'u' :: 'l' :: 'l' :: r2 => some (.null, r2)
        | cs2 => (parseNumLex cs2).map (fun p => (.num (String.mk p.1), p.2))

/-- Object members from the first key on; a comma must be followed by
another member, so a trailing comma fails. -/
def parseObjRest : Nat → List Char → List (String × Json) → Option (Json × List Char)
  | 0, _, _ => none
  | fuel + 1, cs, acc =>
    match cs with
    | '"' :: r =>
      match parseStrBody fuel r with
      | some (k, r2) =>
        match jsonSkipWs r2 with
        | ':' :: r3 =>
          match parseJsonVal fuel r3 with
          | some (v, r4) =>
            match jsonSkipWs r4 with
            | ',' :: r5 => parseObjRest fuel (jsonSkipWs r5) (acc ++ [(String.mk k, v)])
            | '\x7d' :: r5 => some (.obj (acc ++ [(String.mk k, v)]), r5)
            | _ => none
          | none => none
        | _ => none
      | none => none
    | _ => none

/-- Array elements from the first element on. -/
def parseArrRest : Nat → List Char → List Json → Option (Json × List Char)
  | 0, _, _ => none
  | fuel + 1, cs, acc =>
    match parseJsonVal fuel cs with
    | some (v, r) =>
      match jsonSkipWs r with
      | ',' :: r2 => parseArrRest fuel r2 (acc ++ [v])
      | ']' :: r2 => some (.arr (acc ++ [v]), r2)
      | _ => none
    | none => none

end

/-- `JSON.parse`: one complete value, only whitespace around it. -/
def jsonParse (s : String) : Option Json :=
  match parseJsonVal (3 * s.length + 16) s.data with
  | some (v, rest) => if (jsonSkipWs rest).isEmpty then some v else none
  | none => none

/-- Does `cs` start with a closing brace or bracket? -/
def startsWithCloser (cs : List Char) : Bool :=
  match cs with
  | c :: _ => c = '\x7d' || c = ']'
  | [] => false

/-- The pass `replace(/,(\s*[}\]])/g, '$1')`: drop every comma that is
followed (over whitespace) by a closing brace or bracket. -/
def removeTrailingCommas : List Char → List Char
  | [] => []
  | c :: rest =>
    if c = ',' ∧ startsWithCloser (rest.dropWhile jsIsWs) then removeTrailingCommas rest
    else c :: removeTrailingCommas rest

/-- Fuel-driven scan for `dedupCommas`; with fuel at least the list length
the fuel never runs out, since every step consumes at least one character. -/
def dedupCommasGo : Nat → List Char → List Char
  | 0, _ => []
  | _, [] => []
  | fuel + 1, c :: rest =>
    if c = ',' ∧ (rest.dropWhile jsIsWs).head? = some ',' then
      dedupCommasGo fuel (rest.dropWhile jsIsWs)
    else c :: dedupCommasGo fuel rest

/-- The pass `replace(/,(\s*,)+/g, ',')`: collapse a run of commas
(whitespace between them removed) into the final comma of the run. -/
def dedupCommas (cs : List Char) : List Char := dedupCommasGo cs.length cs

/-- The pass `replace(/,\s*$/, '')`: drop one final comma together with the
whitespace after it. -/
def removeEndComma (cs : List Char) : List Char :=
  match (cs.reverse.dropWhile jsIsWs : List Char) with
  | ',' :: r3 => r3.reverse
  | _ => cs

/-- The pass `replace(/^[^{]*/, '').replace(/[^}]*$/, '')`: keep only the
span from the first `\x7b` to the last `\x7d` (everything if either is
missing on its side — the regexes then erase up to the whole string). -/
def trimToBraces (cs : List Char) : List Char :=
  ((cs.dropWhile (fun c => c ≠ '\x7b')).reverse.dropWhile (fun c => c ≠ '\x7d')).reverse

/-- Strip one leading byte-order mark. -/
def stripBom : List Char → List Char
  | [] => []
  | c :: rest => if c = '﻿' then rest else c :: rest

/-- `fixMalformedJson`.  The pass `replace(/([^\\])"/g, '$1"')` replaces
each match with identical text and is the identity, so it contributes no
step here. -/
def fixMalformedJson (content : String) : String :=
  String.mk
    (trimToBraces (removeEndComma (dedupCommas (removeTrailingCommas
      (stripBom (jsTrim content).data)))))

/-- `EpicGame` as `CreateFromJObject` builds it: the raw field values of
the manifest object (`none` models `undefined`). -/
structure EpicGame where
  DisplayName : Option Json
  AppName : Option Json
  CatalogNamespace : Option Json
  CatalogItemId : Option Json
  InstallLocation : Option Json
  LaunchExecutable : Option Json
  bIsApplication : Option Json

/-- Object property access (last duplicate wins, as in `JSON.parse`). -/
def Json.getField (j : Json) (k : String) : Option Json :=
  match j with
  | .obj fs => (fs.reverse.find? (fun e => e.1 = k)).map Prod.snd
  | _ => none

/-- Does this number lexeme denote zero (all mantissa digits `0`)? -/
def numLexIsZero (lex : String) : Bool :=
  (lex.data.takeWhile (fun c => c ≠ 'e' ∧ c ≠ 'E')).all
    (fun c => !c.isDigit || c = '0')

/-- JS truthiness of a parsed JSON value. -/
def Json.truthy : Json → Bool
  | .null => false
  | .bool b => b
  | .num lex => !numLexIsZero lex
  | .str s => s ≠ ""
  | .arr _ => true
  | .obj _ => true

/-- JS truthiness of a possibly-`undefined` JSON value. -/
def jsTruthyJ (o : Option Json) : Bool :=
  match o with
  | some j => j.truthy
  | none => false

mutual

/-- JS string coercion of a parsed JSON value (template literals). -/
def jsToStringJ : Json → String
  | .null => "null"
  | .bool true => "true"
  | .bool false => "false"
  | .num lex => lex
  | .str s => s
  | .arr xs => String.intercalate "," (jsToStringJList xs)
  | .obj _ => "[object Object]"

/-- String coercions of a list of JSON values. -/
def jsToStringJList : List Json → List String
  | [] => []
  | j :: js => jsToStringJ j :: jsToStringJList js

end

/-- JS string coercion of a possibly-`undefined` value, as a template
literal renders it. -/
def jsTemplate (o : Option Json) : String :=
  match o with
  | some j => jsToStringJ j
  | none => "undefined"

/-- `EpicGame.CreateFromJObject`: `null` unless `bIsApplication` is truthy. -/
def EpicGame.CreateFromJObject (jObject : Json) : Option EpicGame :=
  if !jsTruthyJ (jObject.getField "bIsApplication") then none
  else
    some
      { DisplayName := jObject.getField "DisplayName"
        AppName := jObject.getField "AppName"
        CatalogNamespace := jObject.getField "CatalogNamespace"
        CatalogItemId := jObject.getField "CatalogItemId"
        InstallLocation := jObject.getField "InstallLocation"
        LaunchExecutable := jObject.getField "LaunchExecutable"
        bIsApplication := jObject.getField "bIsApplication" }

/-- The field validation of `deserializeManifestFile`.  A truthy non-string
`InstallLocation` makes `.trim()` throw, which the function's `catch`
converts to `null`. -/
def epicValidate (jObject : Json) : Option EpicGame :=
  if !jsTruthyJ (jObject.getField "CatalogItemId") then none
  else if !jsTruthyJ (jObject.getField "DisplayName") then none
  else
    match jObject.getField "InstallLocation" with
    | none => none
    | some v =>
      if !v.truthy then none
      else
        match v with
        | .str s => if jsTrim s = "" then none else EpicGame.CreateFromJObject jObject
        | _ => none

/-- `deserializeManifestFile` on a file's content: parse, else repair and
re-parse, else give up; then validate. -/
def deserializeManifestFile (content : String) : Option EpicGame :=
  match jsonParse content with
  | some jObject => epicValidate jObject
  | none =>
    match jsonParse (fixMalformedJson content) with
    | some jObject => epicValidate jObject
    | none => none

/-- The manifest-file loop of `GetEpicGamesFromMetadata`: files whose
deserialization fails are skipped, the loop continues. -/
def epicProcessManifests (contents : List String) : List EpicGame :=
  contents.filterMap deserializeManifestFile

/-- `PrepareRunTask`. -/
def PrepareRunTask (catalogNamespace catalogItemId appName : String) : String :=
  "com.epicgames.launcher://apps/" ++
    (catalogNamespace ++ ("%3A" ++ (catalogItemId ++ ("%3A" ++
      (appName ++ "?action=launch&silent=true")))))

/-- `getGameExecutablePath` (`!= null` excludes `null` and `undefined`). -/
def epicGetGameExecutablePath (epicGame : EpicGame) : Option String :=
  match epicGame.InstallLocation, epicGame.LaunchExecutable with
  | some Json.null, _ => none
  | _, some Json.null => none
  | some il, some le => some (joinPath (jsToStringJ il) (jsToStringJ le))
  | _, _ => none

/-- The per-game mapping of `EpicSyncEngine.SynchronizeGames`. -/
def epicMapGame (w : World) (epicGame : EpicGame) : Game :=
  { id := "epic-" ++ jsTemplate epicGame.AppName
    title := jsTemplate epicGame.DisplayName
    platform := "Epic Games"
    iconPath := getGameIcon w (epicGetGameExecutablePath epicGame)
    launchCommand :=
      PrepareRunTask (jsTemplate epicGame.CatalogNamespace)
        (jsTemplate epicGame.CatalogItemId) (jsTemplate epicGame.AppName) }

/-- `EpicSyncEngine.SynchronizeGames` on the manifest file contents. -/
def epicSynchronizeGames (w : World) (contents : List String) : List Game :=
  (epicProcessManifests contents).map (epicMapGame w)

/-! ## Shortcuts sync engine (src/platforms/shortcuts/ShortcutsSyncEngine.ts)

The recursive directory walk runs over a finite filesystem subtree
(`FSEntry`); file reads and existence checks elsewhere on disk go through
the `World`. -/

structure ShortcutDirectory where
  path : String
  name : String
deriving DecidableEq, Repr

structure ShortcutInfo where
  path : String
  name : String
  iconPath : Option String := none
  directory : ShortcutDirectory
deriving DecidableEq, Repr

mutual

/-- A filesystem entry as `getAllFilesRecursively` meets it. -/
inductive FSEntry where
  | file (name : String) (content : String)
  | dir (name : String) (entries : FSEntries)

/-- A directory listing, in `readdirSync` order. -/
inductive FSEntries where
  | nil
  | cons (e : FSEntry) (rest : FSEntries)

end

/-- `getAllFilesRecursively`: full paths of all files under the entries of
the directory `base`, directories recursed into in listing order. -/
def getAllFilesRecursively (base : String) : FSEntries → List String
  | .nil => []
  | .cons (.file n _) rest => joinPath base n :: getAllFilesRecursively base rest
  | .cons (.dir n es) rest =>
    getAllFilesRecursively (joinPath base n) es ++ getAllFilesRecursively base rest

/-- Node `path.win32.basename`. -/
def basenameL (cs : List Char) : List Char :=
  (cs.reverse.takeWhile (fun c => c ≠ '\\' ∧ c ≠ '/')).reverse

/-- Node `path.win32.extname`: from the last `.` of the basename, empty when
there is no dot or the only dot leads the basename. -/
def extnameL (cs : List Char) : List Char :=
  let b := basenameL cs
  let afterDotRev := b.reverse.takeWhile (· ≠ '.')
  if afterDotRev.length = b.length then []
  else if afterDotRev.length + 1 = b.length then []
  else '.' :: afterDotRev.reverse

def extname (s : String) : String := String.mk (extnameL s.data)

def basename (s : String) : String := String.mk (basenameL s.data)

/-- Node `path.basename(p, ext)`: the basename with `ext` stripped when it
is a proper suffix. -/
def basenameExt (s ext : String) : String :=
  let b := basenameL s.data
  if ext.data ≠ [] ∧ ext.data.isSuffixOf b ∧ ext.data ≠ b then
    String.mk (b.take (b.length - ext.data.length))
  else String.mk b

/-- JS `s.replace(pat, repl)` for plain-string patterns: leftmost occurrence
only (an empty pattern matches at the start). -/
def replaceFirstL (pat repl s : List Char) : List Char :=
  if pat.isEmpty then repl ++ s
  else
    match s with
    | [] => []
    | c :: rest =>
      if pat.isPrefixOf (c :: rest) then repl ++ (c :: rest).drop pat.length
      else c :: replaceFirstL pat repl rest

def jsReplaceFirst (s pat repl : String) : String :=
  String.mk (replaceFirstL pat.data repl.data s.data)

/-- The `IconFile=` line scan of `getIconPath`: first line whose trimmed
text starts with `IconFile=` and names an existing, non-empty path. -/
def findIconFileLine (w : World) : List String → Option String
  | [] => none
  | line :: rest =>
    let trimmedLine := jsTrim line
    if jsStartsWith trimmedLine "IconFile=" then
      let iconPath := jsTrim (jsReplaceFirst trimmedLine "IconFile=" "")
      if iconPath ≠ "" ∧ w.existsSync iconPath then some iconPath
      else findIconFileLine w rest
    else findIconFileLine w rest

/-- `getIconPath`: for a `.url` shortcut the `IconFile=` target when it
exists (falling back to the shortcut file on read failure or no hit); for
anything else the shortcut file's own path. -/
def getIconPath (w : World) (filePath : String) : String :=
  if jsToLower (extname filePath) = ".url" then
    match w.readFileSync filePath with
    | some content =>
      match findIconFileLine w (jsSplitOnChar '\n' content) with
      | some icon => icon
      | none => filePath
    | none => filePath
  else filePath

/-- `findAllShortcuts` over the configured directories, each given with its
filesystem subtree. -/
def findAllShortcuts (w : World) (dirs : List (ShortcutDirectory × FSEntries)) :
    List ShortcutInfo :=
  dirs.flatMap fun d =>
    (getAllFilesRecursively d.1.path d.2).filterMap fun filePath =>
      let ext := jsToLower (extname filePath)
      if ext = ".url" ∨ ext = ".lnk" then
        some
          { path := filePath
            name := basenameExt filePath ext
            iconPath := some (getIconPath w filePath)
            directory := d.1 }
      else none

/-! ### Base64 (Node `Buffer.from(s).toString('base64')` and its inverse) -/

def b64Chars : List Char :=
  "ABCDEFGHIJKLMNOPQRSTUVWXYZabcdefghijklmnopqrstuvwxyz0123456789+/".data

def b64Char (n : Nat) : Char := b64Chars.getD n '='

def b64Inv (c : Char) : Nat := b64Chars.indexOf c

/-- Standard base64 of a byte list, with `=` padding. -/
def b64EncodeL : List Nat → List Char
  | [] => []
  | [b1] => [b64Char (b1 / 4), b64Char (b1 % 4 * 16), '=', '=']
  | [b1, b2] => [b64Char (b1 / 4), b64Char (b1 % 4 * 16 + b2 / 16), b64Char (b2 % 16 * 4), '=']
  | b1 :: b2 :: b3 :: rest =>
    b64Char (b1 / 4) :: b64Char (b1 % 4 * 16 + b2 / 16) :: b64Char (b2 % 16 * 4 + b3 / 64) ::
      b64Char (b3 % 64) :: b64EncodeL rest

/-- Base64 decoding of well-formed (encoder-produced) text, as
`Buffer.from(s, 'base64')` reads it. -/
def b64DecodeL : List Char → List Nat
  | c1 :: c2 :: c3 :: c4 :: rest =>
    let s1 := b64Inv c1
    let s2 := b64Inv c2
    if c3 = '=' then [s1 * 4 + s2 / 16]
    else
      let s3 := b64Inv c3
      if c4 = '=' then [s1 * 4 + s2 / 16, s2 % 16 * 16 + s3 / 4]
      else
        (s1 * 4 + s2 / 16) :: (s2 % 16 * 16 + s3 / 4) :: (s3 % 4 * 64 + b64Inv c4) ::
          b64DecodeL rest
  | _ => []

/-! ### UTF-8 (Node `Buffer.from(s, 'utf8')` and `buf.toString('utf8')`) -/

/-- UTF-8 bytes of one code point. -/
def utf8EncodeChar (c : Char) : List Nat :=
  let n := c.toNat
  if n < 128 then [n]
  else if n < 2048 then [192 + n / 64, 128 + n % 64]
  else if n < 65536 then [224 + n / 4096, 128 + n / 64 % 64, 128 + n % 64]
  else [240 + n / 262144, 128 + n / 4096 % 64, 128 + n / 64 % 64, 128 + n % 64]

/-- UTF-8 bytes of a character list. -/
def utf8EncodeL : List Char → List Nat
  | [] => []
  | c :: cs => utf8EncodeChar c ++ utf8EncodeL cs

/-- The replacement character emitted for malformed byte sequences. -/
def replChar : Char := '�'

/-- Is `b` a UTF-8 continuation byte? -/
def isCont (b : Nat) : Bool := 128 ≤ b ∧ b < 192

mutual

/-- UTF-8 decoding; malformed sequences yield the replacement character. -/
def utf8DecodeL : List Nat → List Char
  | [] => []
  | b :: rest =>
    if b < 128 then Char.ofNat b :: utf8DecodeL rest
    else if b < 192 then replChar :: utf8DecodeL rest
    else if b < 224 then utf8Decode2 b rest
    else if b < 240 then utf8Decode3 b rest
    else utf8Decode4 b rest

/-- Continuation of a two-byte sequence whose lead byte is `b`. -/
def utf8Decode2 (b : Nat) : List Nat → List Char
  | b2 :: rest2 =>
    if isCont b2 then Char.ofNat ((b - 192) * 64 + (b2 - 128)) :: utf8DecodeL rest2
    else replChar :: utf8DecodeL (b2 :: rest2)
  | [] => [replChar]

/-- Continuation of a three-byte sequence whose lead byte is `b`. -/
def utf8Decode3 (b : Nat) : List Nat → List Char
  | b2 :: b3 :: rest2 =>
    if isCont b2 ∧ isCont b3 then
      Char.ofNat ((b - 224) * 4096 + (b2 - 128) * 64 + (b3 - 128)) :: utf8DecodeL rest2
    else replChar :: utf8DecodeL (b2 :: b3 :: rest2)
  | _ => [replChar]

/-- Continuation of a four-byte sequence whose lead byte is `b`. -/
def utf8Decode4 (b : Nat) : List Nat → List Char
  | b2 :: b3 :: b4 :: rest2 =>
    if isCont b2 ∧ isCont b3 ∧ isCont b4 then
      Char.ofNat ((b - 240) * 262144 + (b2 - 128) * 4096 + (b3 - 128) * 64 + (b4 - 128)) ::
        utf8DecodeL rest2
    else replChar :: utf8DecodeL (b2 :: b3 :: b4 :: rest2)
  | _ => [replChar]

end

/-- The id `mapShortcutToGame` builds:
`` `shortcut-${Buffer.from(shortcut.path).toString('base64')}` ``. -/
def mkShortcutId (path : String) : String :=
  "shortcut-" ++ String.mk (b64EncodeL (utf8EncodeL path.data))

/-- `mapShortcutToGame`. -/
def mapShortcutToGame (shortcut : ShortcutInfo) : Game :=
  { id := mkShortcutId shortcut.path
    title := shortcut.name
    platform := "Shortcut (" ++ shortcut.directory.name ++ ")"
    iconPath := shortcut.iconPath
    launchCommand := shortcut.path
    uninstallCommand := some ("Delete \"" ++ shortcut.name ++ "\"") }

/-- `ShortcutsSyncEngine.SynchronizeGames`. -/
def shortcutsSynchronizeGames (w : World) (dirs : List (ShortcutDirectory × FSEntries)) :
    List Game :=
  (findAllShortcuts w dirs).map mapShortcutToGame

/-- The path decoding of `deleteShortcut`:
`Buffer.from(gameId.replace('shortcut-', ''), 'base64').toString('utf8')`. -/
def decodeShortcutId (gameId : String) : String :=
  String.mk (utf8DecodeL (b64DecodeL (jsReplaceFirst gameId "shortcut-" "").data))

/-! ## Concrete fixtures used by scenario claims and witnesses -/

/-- Is a platform label one of the recognized labels of the `platform`
sort policy's table? -/
def recognizedPlatform (p : String) : Bool := (platformOrderLookup p).isSome

/-- A world on which every host lookup fails. -/
def w0 : World :=
  { existsSync := fun _ => false
    readFileSync := fun _ => none
    readdirSync := fun _ => none
    regQueryValue := fun _ _ => none
    toLocaleDateString := id
    toLocaleString := id }

/-- Content of the scenario's `game.url` shortcut. -/
def urlContent9 : String :=
  "[InternetShortcut]\nURL=steam://rungameid/123\nIconFile=C:\\icons\\g.ico\n"

def dirA9 : ShortcutDirectory := { path := "C:\\dirA", name := "Games A" }

def dirB9 : ShortcutDirectory := { path := "C:\\dirB", name := "Games B" }

def treeA9 : FSEntries := .cons (.file "game.url" urlContent9) .nil

def treeB9 : FSEntries := .cons (.file "app.lnk" "lnkdata") .nil

/-- World of the two-directory shortcut scenario: the icon target exists on
disk, the `.url` file is readable. -/
def w9 : World :=
  { existsSync := fun p => p = "C:\\icons\\g.ico"
    readFileSync := fun p => if p = "C:\\dirA\\game.url" then some urlContent9 else none
    readdirSync := fun _ => none
    regQueryValue := fun _ _ => none
    toLocaleDateString := id
    toLocaleString := id }

def dirs9 : List (ShortcutDirectory × FSEntries) := [(dirA9, treeA9), (dirB9, treeB9)]

/-- An `appmanifest_*.acf` content with `StateFlags` exactly `4`. -/
def steamContent4 : String :=
  "\"AppState\"\n\x7b\n\t\"appid\"\t\t\"10\"\n\t\"name\"\t\t\"Good Game\"\n\t\"StateFlags\"\t\t\"4\"\n\t\"installdir\"\t\t\"GoodGame\"\n\x7d\n"

/-- An `appmanifest_*.acf` content with `StateFlags` exactly `3`. -/
def steamContent3 : String :=
  "\"AppState\"\n\x7b\n\t\"appid\"\t\t\"11\"\n\t\"name\"\t\t\"Other Game\"\n\t\"StateFlags\"\t\t\"3\"\n\t\"installdir\"\t\t\"OtherGame\"\n\x7d\n"

def steamM4 : SteamAppManifest :=
  { appid := "10", name := "Good Game", StateFlags := "4", installdir := "GoodGame",
    LastUpdated := "0", SizeOnDisk := "0" }

def steamM3 : SteamAppManifest :=
  { appid := "11", name := "Other Game", StateFlags := "3", installdir := "OtherGame",
    LastUpdated := "0", SizeOnDisk := "0" }

/-- An Epic manifest whose only defect is the trailing comma before the
closing brace. -/
def epicTrailingComma : String :=
  "\x7b\"CatalogItemId\": \"abc\", \"DisplayName\": \"Good Game\", \"InstallLocation\": \"C:\\\\Games\\\\Good\", \"AppName\": \"good\", \"CatalogNamespace\": \"ns\", \"LaunchExecutable\": \"good.exe\", \"bIsApplication\": true,\x7d"

/-- An unrecoverably truncated Epic manifest. -/
def epicTruncated : String := "\x7b\"CatalogItemId\": \"ab"

def eaGame0 : EaGame := { id := "EA123", title := "EA Game" }

def gameA : Game :=
  { id := "steam-1", title := "A", platform := "Steam", launchCommand := "steam://launch/1" }

def engOk : SyncEngineRun := { PlatformName := "Steam", outcome := .ok [gameA] }

def engFail : SyncEngineRun := { PlatformName := "GOG Galaxy", outcome := .error () }

/-- A UWP app whose package family name coincides with a Playnite library
id. -/
def uwpApp0 : UWPApp :=
  { Name := "Microsoft.SharedGame", PackageFamilyName := "SharedId_abc",
    InstallLocation := "C:\\WindowsApps\\Shared" }

/-- A Playnite snapshot entry whose id coincides with `uwpApp0`'s package
family name. -/
def playniteEntry0 : PlayniteRaycastGame :=
  { Id := "SharedId_abc", Name := "Shared Game", IsInstalled := true }

def epicGame0 : EpicGame :=
  { DisplayName := some (.str "Good Game"), AppName := some (.str "good")
    CatalogNamespace := some (.str "ns"), CatalogItemId := some (.str "abc")
    InstallLocation := some (.str "C:\\Games\\Good")
    LaunchExecutable := some (.str "good.exe"), bIsApplication := some (.bool true) }

def gogGame0 : GOGGame := { id := "1207658924", name := "GOG Game", path := "C:\\GOG\\Game" }

def gogClient0 : GOGGalaxyClient :=
  { exePath := "C:\\Program Files (x86)\\GOG Galaxy\\GalaxyClient.exe"
    iconPath := "C:\\Program Files (x86)\\GOG Galaxy\\Icons\\default.ico" }

def ubisoftGame0 : UbisoftGame := { id := "123", title := "Ubi Game" }

def shortcutInfo0 : ShortcutInfo :=
  { path := "C:\\dirA\\game.url", name := "game", directory := dirA9 }

/-! ## Theorems -/

/-- Two strings with distinct characters somewhere in their first two
positions stay distinct under arbitrary suffixes. -/
theorem prefixed_str_ne (c1 c2 d1 d2 : Char) (t1 t2 : List Char) (a b : String)
    (h : ¬(c1 = d1 ∧ c2 = d2)) :
    String.mk (c1 :: c2 :: t1) ++ a ≠ String.mk (d1 :: d2 :: t2) ++ b := by
  intro he
  have hd := congrArg String.data he
  rw [String.data_append, String.data_append] at hd
  simp only [List.cons_append, List.cons.injEq] at hd
  exact h ⟨hd.1, hd.2.1⟩

/-- C7: with an absent or empty cached entitlement set the Xbox scan is the
empty list (and, being a total function, it cannot raise). -/
theorem C7_xbox_empty_entitlements (w : World) (localApps : List UWPApp)
    (gameDetails : String → Option XboxGameDetails) (startAppsMap : List (String × String))
    (ownedCache : Option (List String))
    (h : ownedCache = none ∨ ownedCache = some []) :
    xboxSynchronizeGames w localApps ownedCache gameDetails startAppsMap = [] := by
  rcases h with rfl | rfl <;> simp [xboxSynchronizeGames]

/-- Witness for `C7_xbox_empty_entitlements` at a concrete scan. -/
theorem C7_xbox_empty_entitlements_witness :
    xboxSynchronizeGames w0 [uwpApp0] none (fun _ => none) [] = [] :=
  C7_xbox_empty_entitlements w0 [uwpApp0] (fun _ => none) [] none (Or.inl rfl)

/-- C8: with no `uninstallCommand` the dispatcher shows the "not supported"
failure toast and invokes no shell command; a shell invocation happens only
when an `uninstallCommand` is present. -/
theorem C8_uninstall_gate (game : Game) (execOk : Bool) :
    (game.uninstallCommand = none →
      (uninstallGame execOk game).shellInvocations = [] ∧
      (uninstallGame execOk game).toasts =
        [⟨.failure, "Uninstall not available",
          game.title ++ " cannot be uninstalled from here"⟩]) ∧
    ((uninstallGame execOk game).shellInvocations ≠ [] → game.uninstallCommand ≠ none) := by
  constructor
  · intro h
    simp [uninstallGame, h, jsTruthyStr]
  · intro h hn
    apply h
    simp [uninstallGame, hn, jsTruthyStr]

/-- Witness for `C8_uninstall_gate` on a record with no uninstall command. -/
theorem C8_uninstall_gate_witness :
    (uninstallGame true gameA).shellInvocations = [] ∧
    (uninstallGame true gameA).toasts =
      [⟨.failure, "Uninstall not available",
        gameA.title ++ " cannot be uninstalled from here"⟩] :=
  (C8_uninstall_gate gameA true).1 rfl

/-- C9: scanning the two configured shortcut directories yields exactly two
records, the platform labels carry the configured directory names, the
`.url` record's icon is the existing `IconFile=` target and the `.lnk`
record's icon is the shortcut's own path. -/
theorem C9_shortcut_scenario :
    (shortcutsSynchronizeGames w9 dirs9).length = 2 ∧
    (shortcutsSynchronizeGames w9 dirs9).map (fun g => g.platform)
      = ["Shortcut (Games A)", "Shortcut (Games B)"] ∧
    (shortcutsSynchronizeGames w9 dirs9).map (fun g => g.iconPath)
      = [some "C:\\icons\\g.ico", some "C:\\dirB\\app.lnk"] ∧
    (shortcutsSynchronizeGames w9 dirs9).map (fun g => g.title) = ["game", "app"] :=
  ⟨by decide, by decide, by decide, by decide⟩

/-- C1 (counterexample): the Xbox and Playnite scanners use the raw vendor
identifier as `id`, so two records from these two different scanners carry
the same id when the vendor identifiers coincide. -/
theorem C1_counterexample :
    (xboxSynchronizeGames w0 [uwpApp0] (some ["SharedId_abc"]) (fun _ => none) []).map
        (fun g => g.id) = ["SharedId_abc"] ∧
    (playniteSyncFromSnapshot w0 "C:\\P" [playniteEntry0]).map (fun g => g.id)
        = ["SharedId_abc"] ∧
    (xboxSynchronizeGames w0 [uwpApp0] (some ["SharedId_abc"]) (fun _ => none) []).map
        (fun g => g.platform) = ["Xbox"] ∧
    (playniteSyncFromSnapshot w0 "C:\\P" [playniteEntry0]).map (fun g => g.platform)
        = ["Playnite"] :=
  ⟨by decide, by decide, by decide, by decide⟩

/-- C1 (amended): the Steam, Epic, GOG, EA, Ubisoft and Shortcuts scanners
namespace their ids with distinct platform prefixes, so records from two
different scanners among these six never share an id, whatever the
underlying vendor identifiers. -/
theorem C1_prefixed_ids_distinct (w1 w2 : World) (steamPath : String)
    (m : SteamAppManifest) (e : EpicGame) (gg : GOGGame) (gc : GOGGalaxyClient)
    (ea : EaGame) (u : UbisoftGame) (sc : ShortcutInfo) :
    (createGameFromManifest w1 steamPath m).id ≠ (epicMapGame w2 e).id ∧
    (createGameFromManifest w1 steamPath m).id ≠ (mapGOGGameToGame gg gc).id ∧
    (createGameFromManifest w1 steamPath m).id ≠ (mapEaGameToGame ea).id ∧
    (createGameFromManifest w1 steamPath m).id ≠ (mapUbisoftGameToGame u).id ∧
    (createGameFromManifest w1 steamPath m).id ≠ (mapShortcutToGame sc).id ∧
    (epicMapGame w2 e).id ≠ (mapGOGGameToGame gg gc).id ∧
    (epicMapGame w2 e).id ≠ (mapEaGameToGame ea).id ∧
    (epicMapGame w2 e).id ≠ (mapUbisoftGameToGame u).id ∧
    (epicMapGame w2 e).id ≠ (mapShortcutToGame sc).id ∧
    (mapGOGGameToGame gg gc).id ≠ (mapEaGameToGame ea).id ∧
    (mapGOGGameToGame gg gc).id ≠ (mapUbisoftGameToGame u).id ∧
    (mapGOGGameToGame gg gc).id ≠ (mapShortcutToGame sc).id ∧
    (mapEaGameToGame ea).id ≠ (mapUbisoftGameToGame u).id ∧
    (mapEaGameToGame ea).id ≠ (mapShortcutToGame sc).id ∧
    (mapUbisoftGameToGame u).id ≠ (mapShortcutToGame sc).id :=
  ⟨prefixed_str_ne 's' 't' 'e' 'p' _ _ _ _ (by decide),
   prefixed_str_ne 's' 't' 'g' 'o' _ _ _ _ (by decide),
   prefixed_str_ne 's' 't' 'e' 'a' _ _ _ _ (by decide),
   prefixed_str_ne 's' 't' 'u' 'b' _ _ _ _ (by decide),
   prefixed_str_ne 's' 't' 's' 'h' _ _ _ _ (by decide),
   prefixed_str_ne 'e' 'p' 'g' 'o' _ _ _ _ (by decide),
   prefixed_str_ne 'e' 'p' 'e' 'a' _ _ _ _ (by decide),
   prefixed_str_ne 'e' 'p' 'u' 'b' _ _ _ _ (by decide),
   prefixed_str_ne 'e' 'p' 's' 'h' _ _ _ _ (by decide),
   prefixed_str_ne 'g' 'o' 'e' 'a' _ _ _ _ (by decide),
   prefixed_str_ne 'g' 'o' 'u' 'b' _ _ _ _ (by decide),
   prefixed_str_ne 'g' 'o' 's' 'h' _ _ _ _ (by decide),
   prefixed_str_ne 'e' 'a' 'u' 'b' _ _ _ _ (by decide),
   prefixed_str_ne 'e' 'a' 's' 'h' _ _ _ _ (by decide),
   prefixed_str_ne 'u' 'b' 's' 'h' _ _ _ _ (by decide)⟩

/-- Witness for `C1_prefixed_ids_distinct` at concrete records. -/
theorem C1_prefixed_ids_distinct_witness :
    (createGameFromManifest w0 "C:\\Steam" steamM4).id ≠ (epicMapGame w0 epicGame0).id ∧
    (mapEaGameToGame eaGame0).id ≠ (mapShortcutToGame shortcutInfo0).id :=
  ⟨(C1_prefixed_ids_distinct w0 w0 "C:\\Steam" steamM4 epicGame0 gogGame0 gogClient0
      eaGame0 ubisoftGame0 shortcutInfo0).1,
   (C1_prefixed_ids_distinct w0 w0 "C:\\Steam" steamM4 epicGame0 gogGame0 gogClient0
      eaGame0 ubisoftGame0 shortcutInfo0).2.2.2.2.2.2.2.2.2.2.2.2.2.1⟩

/-- C5: a manifest is counted as installed exactly when bit 4 of its parsed
`StateFlags` is set; `StateFlags` `4` is included in the scan output,
`StateFlags` `3` is excluded and contributes no record while the scan
continues over the remaining manifests. -/
theorem C5_stateflags_gate :
    (∀ (w : World) (steamPath : String) (c : Option String) (rest : List (Option String))
        (seen : List String) (m : SteamAppManifest),
        parseAppManifest c = some m → isGameInstalled m = false →
        scanLibraryFolder w steamPath (c :: rest) seen =
          scanLibraryFolder w steamPath rest seen) ∧
    (∀ m : SteamAppManifest,
        isGameInstalled m = true ↔
          ((((jsParseInt m.StateFlags).getD 0) % 4294967296).toNat &&& 4 ≠ 0)) ∧
    isGameInstalled steamM4 = true ∧
    isGameInstalled steamM3 = false ∧
    parseAppManifest (some steamContent4) = some steamM4 ∧
    parseAppManifest (some steamContent3) = some steamM3 ∧
    scanLibraryFolder w0 "C:\\Steam" [some steamContent4, some steamContent3] []
      = ([createGameFromManifest w0 "C:\\Steam" steamM4], ["10"]) := by
  refine ⟨?_, ?_, by decide, by decide, by decide, by decide, by decide⟩
  · intro w steamPath c rest seen m hp hi
    have hcond : ¬(isGameInstalled m = true ∧ isActualGame m = true) := by simp [hi]
    simp only [scanLibraryFolder, hp, hcond, if_false]
  · intro m
    simp [isGameInstalled, int32BitFourSet]

/-- Witness for `C5_stateflags_gate`: the `StateFlags = 3` manifest is
skipped by the scan loop. -/
theorem C5_stateflags_gate_witness :
    scanLibraryFolder w0 "C:\\Steam" [some steamContent3] [] =
      scanLibraryFolder w0 "C:\\Steam" [] [] ∧
    (isGameInstalled steamM4 = true ↔
      ((((jsParseInt steamM4.StateFlags).getD 0) % 4294967296).toNat &&& 4 ≠ 0)) :=
  ⟨C5_stateflags_gate.1 w0 "C:\\Steam" (some steamContent3) [] [] steamM3
      (by decide) (by decide),
   C5_stateflags_gate.2.1 steamM4⟩

/-- C6: a manifest whose only defect is a trailing comma fails `JSON.parse`
but is repaired into parseable JSON and yields a record; any file that
neither parses nor repairs yields no record, and such a file is skipped
while the manifest loop continues over the remaining files. -/
theorem C6_json_repair :
    ((jsonParse epicTrailingComma).isNone = true ∧
     (jsonParse (fixMalformedJson epicTrailingComma)).isSome = true ∧
     (deserializeManifestFile epicTrailingComma).isSome = true) ∧
    (∀ content : String, jsonParse content = none →
      jsonParse (fixMalformedJson content) = none →
      deserializeManifestFile content = none) ∧
    (∀ (pre post : List String) (content : String),
      deserializeManifestFile content = none →
      epicProcessManifests (pre ++ content :: post)
        = epicProcessManifests pre ++ epicProcessManifests post) := by
  refine ⟨⟨by decide, by decide, by decide⟩, ?_, ?_⟩
  · intro content h1 h2
    simp only [deserializeManifestFile, h1, h2]
  · intro pre post content h
    simp only [epicProcessManifests, List.filterMap_append, List.filterMap_cons, h]

/-- Witness for `C6_json_repair`: the truncated manifest is rejected and
skipped, the preceding repairable one still yields its record. -/
theorem C6_json_repair_witness :
    deserializeManifestFile epicTruncated = none ∧
    epicProcessManifests ([epicTrailingComma] ++ epicTruncated :: [])
      = epicProcessManifests [epicTrailingComma] ++ epicProcessManifests [] :=
  ⟨C6_json_repair.2.1 epicTruncated (Option.isNone_iff_eq_none.mp (by decide))
      (Option.isNone_iff_eq_none.mp (by decide)),
   C6_json_repair.2.2 [epicTrailingComma] [] epicTruncated
     (C6_json_repair.2.1 epicTruncated (Option.isNone_iff_eq_none.mp (by decide))
       (Option.isNone_iff_eq_none.mp (by decide)))⟩

/-- A string with a non-empty left append component is non-empty. -/
theorem strAppend_ne_empty (s t : String) (h : s.data ≠ []) : s ++ t ≠ "" := by
  intro he
  apply h
  have hd := congrArg String.data he
  rw [String.data_append] at hd
  exact (List.append_eq_nil.mp hd).1

/-- Joined paths are never the empty string. -/
theorem joinPath_ne_empty (a b : String) : joinPath a b ≠ "" := by
  intro h
  have hd := congrArg String.data h
  rw [joinPath, String.data_append, String.data_append] at hd
  rcases List.append_eq_nil.mp hd with ⟨h1, -⟩
  rcases List.append_eq_nil.mp h1 with ⟨-, h2⟩
  exact List.cons_ne_nil _ _ h2

/-- Every game of one engine's successful outcome is in the merged list. -/
theorem mem_mergeGames {engines : List SyncEngineRun} {e : SyncEngineRun}
    {gs : List Game} {g : Game} (he : e ∈ engines) (ho : e.outcome = .ok gs)
    (hg : g ∈ gs) : g ∈ mergeGames engines := by
  induction he with
  | head rest =>
    simp only [mergeGames, ho]
    exact List.mem_append.mpr (Or.inl hg)
  | tail b hmem ih =>
    simp only [mergeGames]
    exact List.mem_append.mpr (Or.inr ih)

/-- Merging distributes over engine-list concatenation. -/
theorem mergeGames_append (l1 l2 : List SyncEngineRun) :
    mergeGames (l1 ++ l2) = mergeGames l1 ++ mergeGames l2 := by
  induction l1 with
  | nil => simp [mergeGames]
  | cons e rest ih => simp [mergeGames, ih, List.append_assoc]

/-- Every ordering policy preserves membership. -/
theorem mem_sortGames (lc : String → String → Int) (sortOrder : String)
    {l : List Game} {g : Game} (h : g ∈ l) : g ∈ sortGames lc sortOrder l := by
  unfold sortGames
  split_ifs <;> simp [List.mem_mergeSort, h]

/-- C3: a game produced by any engine whose synchronize succeeded is in the
aggregated result whatever another engine did, and an engine whose
synchronize threw contributes nothing to the merge. -/
theorem C3_scanner_isolation :
    (∀ (lc : String → String → Int) (sortOrder : String) (engines : List SyncEngineRun)
        (e : SyncEngineRun) (gs : List Game) (g : Game),
        e ∈ engines → e.outcome = .ok gs → g ∈ gs →
        g ∈ loadGamesResult lc sortOrder engines) ∧
    (∀ (pre post : List SyncEngineRun) (f : SyncEngineRun),
        f.outcome = .error () →
        mergeGames (pre ++ f :: post) = mergeGames (pre ++ post)) := by
  constructor
  · intro lc sortOrder engines e gs g he ho hg
    exact mem_sortGames lc sortOrder (mem_mergeGames he ho hg)
  · intro pre post f hf
    rw [mergeGames_append, mergeGames_append]
    simp [mergeGames, hf]

/-- Witness for `C3_scanner_isolation`: with one succeeding and one
throwing engine, the succeeding engine's game survives aggregation and the
throwing engine adds nothing. -/
theorem C3_scanner_isolation_witness :
    gameA ∈ loadGamesResult (fun _ _ => 0) "alphabetical" [engOk, engFail] ∧
    mergeGames ([engOk] ++ engFail :: []) = mergeGames ([engOk] ++ []) :=
  ⟨C3_scanner_isolation.1 (fun _ _ => 0) "alphabetical" [engOk, engFail] engOk [gameA]
      gameA (List.Mem.head _) rfl (List.Mem.head _),
   C3_scanner_isolation.2 [engOk] [] engFail rfl⟩

/-- Every game the library-folder scan emits comes from
`createGameFromManifest`. -/
theorem mem_scanLibraryFolder (w : World) (sp : String) :
    ∀ (cs : List (Option String)) (seen : List String) (g : Game),
    g ∈ (scanLibraryFolder w sp cs seen).1 → ∃ m, g = createGameFromManifest w sp m := by
  intro cs
  induction cs with
  | nil =>
    intro seen g hg
    simp [scanLibraryFolder] at hg
  | cons c rest ih =>
    intro seen g hg
    simp only [scanLibraryFolder] at hg
    cases hp : parseAppManifest c with
    | none =>
      rw [hp] at hg
      exact ih seen g hg
    | some m =>
      rw [hp] at hg
      dsimp only at hg
      by_cases hc : isGameInstalled m = true ∧ isActualGame m = true
      · rw [if_pos hc] at hg
        by_cases hs : seen.contains m.appid = true
        · rw [if_pos hs] at hg
          exact ih seen g hg
        · rw [if_neg hs] at hg
          simp only [List.mem_cons] at hg
          rcases hg with rfl | hg
          · exact ⟨m, rfl⟩
          · exact ih _ g hg
      · rw [if_neg hc] at hg
        exact ih seen g hg

/-- Every game of the whole Steam scan comes from `createGameFromManifest`. -/
theorem mem_steamFindAllGames (w : World) (sp : String)
    (libraries : List (List (Option String))) (g : Game)
    (hg : g ∈ steamFindAllGames w sp libraries) :
    ∃ m, g = createGameFromManifest w sp m := by
  suffices h : ∀ (libs : List (List (Option String))) (acc : List Game × List String),
      g ∈ (libs.foldl
        (fun (acc : List Game × List String) lib =>
          let r := scanLibraryFolder w sp lib acc.2
          (acc.1 ++ r.1, r.2)) acc).1 →
      g ∈ acc.1 ∨ ∃ m, g = createGameFromManifest w sp m by
    rcases h libraries ([], []) hg with h2 | h2
    · simp at h2
    · exact h2
  intro libs
  induction libs with
  | nil => intro acc h; exact Or.inl h
  | cons lib rest ih =>
    intro acc h
    rw [List.foldl_cons] at h
    rcases ih _ h with h2 | h2
    · rcases List.mem_append.mp h2 with h3 | h3
      · exact Or.inl h3
      · exact Or.inr (mem_scanLibraryFolder w sp _ _ g h3)
    · exact Or.inr h2

/-- Every path the recursive walk returns is a join of a directory and an
entry name. -/
theorem mem_getAllFilesRecursively_shape :
    ∀ (base : String) (es : FSEntries) (p : String),
    p ∈ getAllFilesRecursively base es → ∃ a b, p = joinPath a b := by
  intro base es
  induction base, es using getAllFilesRecursively.induct with
  | case1 base =>
    intro p hp
    simp [getAllFilesRecursively] at hp
  | case2 base n content rest ih =>
    intro p hp
    simp only [getAllFilesRecursively, List.mem_cons] at hp
    rcases hp with rfl | hp
    · exact ⟨base, n, rfl⟩
    · exact ih p hp
  | case3 base n es rest ih1 ih2 =>
    intro p hp
    simp only [getAllFilesRecursively, List.mem_append] at hp
    rcases hp with hp | hp
    · exact ih1 p hp
    · exact ih2 p hp

/-- C2: every record any scanner's synchronize emits has a non-empty
`launchCommand` (for the EA scanner the `undefined`-interpolated fallback
string is degenerate but still non-empty). -/
theorem C2_launchCommand_nonempty :
    (∀ (w : World) (sp : String) (libraries : List (List (Option String))) (g : Game),
        g ∈ steamFindAllGames w sp libraries → g.launchCommand ≠ "") ∧
    (∀ (w : World) (contents : List String) (g : Game),
        g ∈ epicSynchronizeGames w contents → g.launchCommand ≠ "") ∧
    (∀ (gogClient : Option GOGGalaxyClient) (gogGames : List GOGGame) (g : Game),
        g ∈ gogSynchronizeGames gogClient gogGames → g.launchCommand ≠ "") ∧
    (∀ (eaGames : List EaGame) (g : Game),
        g ∈ eaSynchronizeGames eaGames → g.launchCommand ≠ "") ∧
    (∀ (ubisoftGames : List UbisoftGame) (g : Game),
        g ∈ ubisoftSynchronizeGames ubisoftGames → g.launchCommand ≠ "") ∧
    (∀ (w : World) (dataPath : String) (libraryData : List PlayniteRaycastGame) (g : Game),
        g ∈ playniteSyncFromSnapshot w dataPath libraryData → g.launchCommand ≠ "") ∧
    (∀ (w : World) (dataPath : String) (gameFiles : List (Option PlayniteGame)) (g : Game),
        g ∈ playniteSyncFromFiles w dataPath gameFiles → g.launchCommand ≠ "") ∧
    (∀ (w : World) (localApps : List UWPApp) (ownedCache : Option (List String))
        (gameDetails : String → Option XboxGameDetails)
        (startAppsMap : List (String × String)) (g : Game),
        g ∈ xboxSynchronizeGames w localApps ownedCache gameDetails startAppsMap →
        g.launchCommand ≠ "") ∧
    (∀ (w : World) (dirs : List (ShortcutDirectory × FSEntries)) (g : Game),
        g ∈ shortcutsSynchronizeGames w dirs → g.launchCommand ≠ "") := by
  refine ⟨?_, ?_, ?_, ?_, ?_, ?_, ?_, ?_, ?_⟩
  · intro w sp libraries g hg
    obtain ⟨m, rfl⟩ := mem_steamFindAllGames w sp libraries g hg
    exact strAppend_ne_empty "steam://launch/" m.appid (by decide)
  · intro w contents g hg
    obtain ⟨e, -, rfl⟩ := List.mem_map.mp hg
    exact strAppend_ne_empty "com.epicgames.launcher://apps/" _ (by decide)
  · intro gogClient gogGames g hg
    cases gogClient with
    | none => simp [gogSynchronizeGames] at hg
    | some c =>
      obtain ⟨gg, -, rfl⟩ := List.mem_map.mp hg
      exact strAppend_ne_empty "/command=runGame /gameId=" _ (by decide)
  · intro eaGames g hg
    obtain ⟨ea, -, rfl⟩ := List.mem_map.mp hg
    cases he : ea.executablePath with
    | none => simp only [mapEaGameToGame, he]; decide
    | some p =>
      by_cases hp : p = ""
      · simp only [mapEaGameToGame, he, hp]; decide
      · simp [mapEaGameToGame, he, hp]
  · intro ubisoftGames g hg
    obtain ⟨u, -, rfl⟩ := List.mem_map.mp hg
    exact strAppend_ne_empty "uplay://launch/" _ (by decide)
  · intro w dataPath libraryData g hg
    obtain ⟨gd, -, hf⟩ := List.mem_filterMap.mp hg
    by_cases hc : (!gd.IsInstalled || jsTruthyBoolOpt gd.Hidden) = true
    · simp [hc] at hf
    · simp only [hc, if_false, Bool.not_eq_true] at hf
      rw [Option.some.inj hf.symm]
      exact strAppend_ne_empty "playnite://playnite/start/" _ (by decide)
  · intro w dataPath gameFiles g hg
    obtain ⟨parsed, -, hf⟩ := List.mem_filterMap.mp hg
    cases parsed with
    | none => simp at hf
    | some gd =>
      by_cases hc : (!gd.IsInstalled) = true
      · simp [hc] at hf
      · simp only [hc, if_false, Bool.not_eq_true] at hf
        rw [Option.some.inj hf.symm]
        exact strAppend_ne_empty "playnite://playnite/start/" _ (by decide)
  · intro w localApps ownedCache gameDetails startAppsMap g hg
    cases ownedCache with
    | none => simp [xboxSynchronizeGames] at hg
    | some owned =>
      simp only [xboxSynchronizeGames] at hg
      by_cases ho : owned.isEmpty = true
      · rw [if_pos ho] at hg
        cases hg
      · rw [if_neg ho] at hg
        obtain ⟨app, -, hf⟩ := List.mem_filterMap.mp hg
        by_cases hc : owned.contains app.PackageFamilyName = true
        · rw [if_pos hc] at hf
          rw [Option.some.inj hf.symm]
          show createLaunchCommand app.PackageFamilyName startAppsMap ≠ ""
          unfold createLaunchCommand
          cases startAppsGet startAppsMap app.PackageFamilyName with
          | none => exact strAppend_ne_empty "shell:AppsFolder\\" _ (by decide)
          | some fullAppId => exact strAppend_ne_empty "shell:AppsFolder\\" _ (by decide)
        · rw [if_neg hc] at hf
          cases hf
  · intro w dirs g hg
    obtain ⟨sc, hsc, rfl⟩ := List.mem_map.mp hg
    obtain ⟨d, -, hsc2⟩ := List.mem_flatMap.mp hsc
    obtain ⟨fp, hfp, hf⟩ := List.mem_filterMap.mp hsc2
    by_cases hc : (jsToLower (extname fp) = ".url" ∨ jsToLower (extname fp) = ".lnk")
    · rw [if_pos hc] at hf
      have hpath : sc.path = fp := by
        rw [← Option.some.inj hf]
      show sc.path ≠ ""
      rw [hpath]
      obtain ⟨a, b, rfl⟩ := mem_getAllFilesRecursively_shape d.1.path d.2 fp hfp
      exact joinPath_ne_empty a b
    · rw [if_neg hc] at hf
      cases hf

/-- Witness for `C2_launchCommand_nonempty` on concrete EA and Steam scans. -/
theorem C2_launchCommand_nonempty_witness :
    (mapEaGameToGame eaGame0).launchCommand ≠ "" ∧
    (createGameFromManifest w0 "C:\\Steam" steamM4).launchCommand ≠ "" :=
  ⟨C2_launchCommand_nonempty.2.2.2.1 [eaGame0] (mapEaGameToGame eaGame0) (by decide),
   C2_launchCommand_nonempty.1 w0 "C:\\Steam" [[some steamContent4]]
     (createGameFromManifest w0 "C:\\Steam" steamM4) (by decide)⟩

/-- A stable merge sort leaves the subsequence of elements satisfying `p`
untouched whenever `p`-elements compare `le` to each other. -/
theorem filter_mergeSort_eq {α : Type} (le : α → α → Bool)
    (htr : ∀ a b c, le a b = true → le b c = true → le a c = true)
    (hto : ∀ a b, (le a b || le b a) = true)
    (p : α → Bool) (hp : ∀ a b, p a = true → p b = true → le a b = true)
    (l : List α) : (l.mergeSort le).filter p = l.filter p := by
  have hpair : (l.filter p).Pairwise (fun a b => le a b = true) :=
    List.pairwise_of_forall_mem_list fun a ha b hb =>
      hp a b (List.of_mem_filter ha) (List.of_mem_filter hb)
  have hsub : (l.filter p).Sublist (l.mergeSort le) :=
    List.sublist_mergeSort htr hto hpair (List.filter_sublist l)
  have hsub2 : (l.filter p).Sublist ((l.mergeSort le).filter p) := by
    have h3 := List.Sublist.filter p hsub
    rwa [show (l.filter p).filter p = l.filter p from
      List.filter_eq_self.mpr (fun a ha => List.of_mem_filter ha)] at h3
  have hperm : ((l.mergeSort le).filter p).Perm (l.filter p) :=
    (List.mergeSort_perm l le).filter p
  exact (hsub2.eq_of_length hperm.length_eq.symm).symm

/-- Recognized labels get keys at most 5 in the platform order table. -/
theorem platformOrderLookup_le (p : String) (k : Nat)
    (h : platformOrderLookup p = some k) : k ≤ 5 := by
  unfold platformOrderLookup at h
  split_ifs at h <;> simp_all <;> omega

/-- A record whose platform key is at most a recognized record's key is
itself recognized. -/
theorem recognized_of_key_le (a b : Game)
    (hle : platformOrderKey a.platform ≤ platformOrderKey b.platform)
    (hb : recognizedPlatform b.platform = true) : recognizedPlatform a.platform = true := by
  unfold recognizedPlatform at *
  cases ha2 : platformOrderLookup a.platform with
  | some k => rfl
  | none =>
    cases hb2 : platformOrderLookup b.platform with
    | none => rw [hb2] at hb; cases hb
    | some k =>
      have hk := platformOrderLookup_le b.platform k hb2
      unfold platformOrderKey at hle
      rw [ha2, hb2] at hle
      simp at hle
      omega

/-- C4: the `platform` policy places every unrecognized label after all
recognized ones; both the `platform` and `alphabetical` policies are
idempotent; and both are stable (equal-key records keep their relative
order), for any collation `lc` that is a consistent comparator (transitive
and total, as ECMA-402 guarantees for `localeCompare`). -/
theorem C4_sort_properties (lc : String → String → Int)
    (htrans : ∀ a b c : String, lc a b ≤ 0 → lc b c ≤ 0 → lc a c ≤ 0)
    (htotal : ∀ a b : String, lc a b ≤ 0 ∨ lc b a ≤ 0) :
    (∀ l : List Game, (sortGames lc "platform" l).Pairwise
        (fun a b => recognizedPlatform b.platform = true →
          recognizedPlatform a.platform = true)) ∧
    (∀ l : List Game,
        sortGames lc "platform" (sortGames lc "platform" l) = sortGames lc "platform" l) ∧
    (∀ l : List Game,
        sortGames lc "alphabetical" (sortGames lc "alphabetical" l)
          = sortGames lc "alphabetical" l) ∧
    (∀ (l : List Game) (k : Nat),
        (sortGames lc "platform" l).filter (fun g => platformOrderKey g.platform = k)
          = l.filter (fun g => platformOrderKey g.platform = k)) ∧
    (∀ (l : List Game) (t : String),
        (sortGames lc "alphabetical" l).filter (fun g => g.title = t)
          = l.filter (fun g => g.title = t)) := by
  have ptrans : ∀ a b c : Game,
      (decide (platformOrderKey a.platform ≤ platformOrderKey b.platform)) = true →
      (decide (platformOrderKey b.platform ≤ platformOrderKey c.platform)) = true →
      (decide (platformOrderKey a.platform ≤ platformOrderKey c.platform)) = true := by
    intro a b c h1 h2
    simp only [decide_eq_true_eq] at *
    omega
  have ptotal : ∀ a b : Game,
      ((decide (platformOrderKey a.platform ≤ platformOrderKey b.platform)) ||
       (decide (platformOrderKey b.platform ≤ platformOrderKey a.platform))) = true := by
    intro a b
    simp only [Bool.or_eq_true, decide_eq_true_eq]
    omega
  have atrans : ∀ a b c : Game,
      (decide (lc a.title b.title ≤ 0)) = true →
      (decide (lc b.title c.title ≤ 0)) = true →
      (decide (lc a.title c.title ≤ 0)) = true := by
    intro a b c h1 h2
    simp only [decide_eq_true_eq] at *
    exact htrans _ _ _ h1 h2
  have atotal : ∀ a b : Game,
      ((decide (lc a.title b.title ≤ 0)) || (decide (lc b.title a.title ≤ 0))) = true := by
    intro a b
    simp only [Bool.or_eq_true, decide_eq_true_eq]
    exact htotal _ _
  refine ⟨?_, ?_, ?_, ?_, ?_⟩
  · intro l
    simp only [sortGames, reduceIte]
    exact (List.sorted_mergeSort ptrans ptotal l).imp
      (fun hab => recognized_of_key_le _ _ (by simpa using hab))
  · intro l
    simp only [sortGames, reduceIte]
    exact List.mergeSort_of_sorted (List.sorted_mergeSort ptrans ptotal l)
  · intro l
    simp only [sortGames, reduceIte]
    exact List.mergeSort_of_sorted (List.sorted_mergeSort atrans atotal l)
  · intro l k
    simp only [sortGames, reduceIte]
    refine filter_mergeSort_eq _ ptrans ptotal _ ?_ l
    intro a b ha hb
    simp only [decide_eq_true_eq] at *
    omega
  · intro l t
    simp only [sortGames, reduceIte]
    refine filter_mergeSort_eq _ atrans atotal _ ?_ l
    intro a b ha hb
    simp only [decide_eq_true_eq] at *
    rw [ha, hb]
    rcases htotal t t with h | h <;> exact h

/-- Witness for `C4_sort_properties` with the degenerate (constant)
collation on a concrete list. -/
theorem C4_sort_properties_witness :
    sortGames (fun _ _ => 0) "platform" (sortGames (fun _ _ => 0) "platform" [gameA])
      = sortGames (fun _ _ => 0) "platform" [gameA] ∧
    sortGames (fun _ _ => 0) "alphabetical" (sortGames (fun _ _ => 0) "alphabetical" [gameA])
      = sortGames (fun _ _ => 0) "alphabetical" [gameA] :=
  ⟨(C4_sort_properties (fun _ _ => 0) (fun _ _ _ _ _ => Int.le_refl 0)
      (fun _ _ => Or.inl (Int.le_refl 0))).2.1 [gameA],
   (C4_sort_properties (fun _ _ => 0) (fun _ _ _ _ _ => Int.le_refl 0)
      (fun _ _ => Or.inl (Int.le_refl 0))).2.2.1 [gameA]⟩

/-- The base64 character table is inverted by `b64Inv` on all 64 sextets. -/
theorem b64Inv_b64Char : ∀ s : Nat, s < 64 → b64Inv (b64Char s) = s := by decide

/-- No table character is the padding character. -/
theorem b64Char_ne_pad : ∀ s : Nat, s < 64 → b64Char s ≠ '=' := by decide

/-- Base64 decoding inverts encoding on byte lists. -/
theorem b64_roundtrip :
    ∀ bs : List Nat, (∀ b ∈ bs, b < 256) → b64DecodeL (b64EncodeL bs) = bs := by
  intro bs
  induction bs using b64EncodeL.induct with
  | case1 =>
    intro _
    rfl
  | case2 b1 =>
    intro h
    have hb1 : b1 < 256 := h b1 (by simp)
    simp only [b64EncodeL, b64DecodeL, reduceIte]
    rw [b64Inv_b64Char _ (by omega), b64Inv_b64Char _ (by omega)]
    simp only [List.cons.injEq, and_true]
    omega
  | case3 b1 b2 =>
    intro h
    have hb1 : b1 < 256 := h b1 (by simp)
    have hb2 : b2 < 256 := h b2 (by simp)
    simp only [b64EncodeL, b64DecodeL]
    rw [if_neg (b64Char_ne_pad _ (by omega))]
    simp only [if_true]
    rw [b64Inv_b64Char _ (by omega), b64Inv_b64Char _ (by omega),
        b64Inv_b64Char _ (by omega)]
    simp only [List.cons.injEq, and_true]
    constructor <;> omega
  | case4 b1 b2 b3 rest ih =>
    intro h
    have hb1 : b1 < 256 := h b1 (by simp)
    have hb2 : b2 < 256 := h b2 (by simp)
    have hb3 : b3 < 256 := h b3 (by simp)
    have ih2 := ih (fun b hb => h b (by simp [hb]))
    simp only [b64EncodeL, b64DecodeL]
    rw [if_neg (b64Char_ne_pad _ (by omega)), if_neg (b64Char_ne_pad _ (by omega))]
    rw [b64Inv_b64Char _ (by omega), b64Inv_b64Char _ (by omega),
        b64Inv_b64Char _ (by omega), b64Inv_b64Char _ (by omega)]
    rw [ih2]
    simp only [List.cons.injEq, and_true]
    refine ⟨by omega, by omega, by omega⟩

/-- Every code point is below `0x110000`. -/
theorem char_toNat_lt (c : Char) : c.toNat < 1114112 := by
  rcases c.valid with h | ⟨-, h⟩
  · exact Nat.lt_trans h (by decide)
  · exact h

/-- Decoding one ASCII byte. -/
theorem utf8DecodeL_one (b : Nat) (rest : List Nat) (h : b < 128) :
    utf8DecodeL (b :: rest) = Char.ofNat b :: utf8DecodeL rest := by
  rw [utf8DecodeL.eq_def]
  dsimp only
  rw [if_pos h]

/-- Decoding one two-byte sequence. -/
theorem utf8DecodeL_two (b b2 : Nat) (rest : List Nat)
    (hb : 192 ≤ b ∧ b < 224) (hc : 128 ≤ b2 ∧ b2 < 192) :
    utf8DecodeL (b :: b2 :: rest)
      = Char.ofNat ((b - 192) * 64 + (b2 - 128)) :: utf8DecodeL rest := by
  rw [utf8DecodeL.eq_def]
  dsimp only
  rw [if_neg (by omega), if_neg (by omega), if_pos (by omega : b < 224)]
  rw [utf8Decode2]
  rw [if_pos (show isCont b2 = true by simp only [isCont, decide_eq_true_eq]; omega)]

/-- Decoding one three-byte sequence. -/
theorem utf8DecodeL_three (b b2 b3 : Nat) (rest : List Nat)
    (hb : 224 ≤ b ∧ b < 240) (hc2 : 128 ≤ b2 ∧ b2 < 192) (hc3 : 128 ≤ b3 ∧ b3 < 192) :
    utf8DecodeL (b :: b2 :: b3 :: rest)
      = Char.ofNat ((b - 224) * 4096 + (b2 - 128) * 64 + (b3 - 128)) :: utf8DecodeL rest := by
  rw [utf8DecodeL.eq_def]
  dsimp only
  rw [if_neg (by omega), if_neg (by omega), if_neg (by omega), if_pos (by omega : b < 240)]
  rw [utf8Decode3]
  rw [if_pos (show (isCont b2 = true ∧ isCont b3 = true) by
    constructor <;> (simp only [isCont, decide_eq_true_eq]; omega))]

/-- Decoding one four-byte sequence. -/
theorem utf8DecodeL_four (b b2 b3 b4 : Nat) (rest : List Nat)
    (hb : 240 ≤ b) (hc2 : 128 ≤ b2 ∧ b2 < 192) (hc3 : 128 ≤ b3 ∧ b3 < 192)
    (hc4 : 128 ≤ b4 ∧ b4 < 192) :
    utf8DecodeL (b :: b2 :: b3 :: b4 :: rest)
      = Char.ofNat ((b - 240) * 262144 + (b2 - 128) * 4096 + (b3 - 128) * 64 + (b4 - 128)) ::
          utf8DecodeL rest := by
  rw [utf8DecodeL.eq_def]
  dsimp only
  rw [if_neg (by omega), if_neg (by omega), if_neg (by omega), if_neg (by omega)]
  rw [utf8Decode4]
  rw [if_pos (show (isCont b2 = true ∧ isCont b3 = true ∧ isCont b4 = true) by
    refine ⟨?_, ?_, ?_⟩ <;> (simp only [isCont, decide_eq_true_eq]; omega))]

/-- UTF-8 decoding inverts the encoding of one character, whatever bytes
follow. -/
theorem utf8_decode_encode_char (c : Char) (rest : List Nat) :
    utf8DecodeL (utf8EncodeChar c ++ rest) = c :: utf8DecodeL rest := by
  have hv := char_toNat_lt c
  unfold utf8EncodeChar
  by_cases h1 : c.toNat < 128
  · rw [if_pos h1]
    simp only [List.cons_append, List.nil_append]
    rw [utf8DecodeL_one _ _ h1, Char.ofNat_toNat]
  · rw [if_neg h1]
    by_cases h2 : c.toNat < 2048
    · rw [if_pos h2]
      simp only [List.cons_append, List.nil_append]
      rw [utf8DecodeL_two _ _ _ (by omega) (by omega)]
      have harg : (192 + c.toNat / 64 - 192) * 64 + (128 + c.toNat % 64 - 128) = c.toNat := by
        omega
      rw [harg, Char.ofNat_toNat]
    · rw [if_neg h2]
      by_cases h3 : c.toNat < 65536
      · rw [if_pos h3]
        simp only [List.cons_append, List.nil_append]
        rw [utf8DecodeL_three _ _ _ _ (by omega) (by omega) (by omega)]
        have harg : (224 + c.toNat / 4096 - 224) * 4096 + (128 + c.toNat / 64 % 64 - 128) * 64 +
            (128 + c.toNat % 64 - 128) = c.toNat := by
          omega
        rw [harg, Char.ofNat_toNat]
      · rw [if_neg h3]
        simp only [List.cons_append, List.nil_append]
        rw [utf8DecodeL_four _ _ _ _ _ (by omega) (by omega) (by omega) (by omega)]
        have harg : (240 + c.toNat / 262144 - 240) * 262144 +
            (128 + c.toNat / 4096 % 64 - 128) * 4096 +
            (128 + c.toNat / 64 % 64 - 128) * 64 + (128 + c.toNat % 64 - 128) = c.toNat := by
          omega
        rw [harg, Char.ofNat_toNat]

/-- UTF-8 decoding inverts encoding on character lists. -/
theorem utf8_roundtrip (cs : List Char) : utf8DecodeL (utf8EncodeL cs) = cs := by
  induction cs with
  | nil =>
    rw [show utf8EncodeL [] = [] from rfl, utf8DecodeL.eq_def]
  | cons c rest ih =>
    rw [utf8EncodeL, utf8_decode_encode_char, ih]

/-- Every byte the UTF-8 encoder emits for one character fits in an octet. -/
theorem utf8EncodeChar_lt (c : Char) : ∀ b ∈ utf8EncodeChar c, b < 256 := by
  intro b hb
  have hv := char_toNat_lt c
  simp only [utf8EncodeChar] at hb
  split_ifs at hb <;> simp_all <;> omega

/-- Every byte the UTF-8 encoder emits fits in an octet. -/
theorem utf8EncodeL_lt (cs : List Char) : ∀ b ∈ utf8EncodeL cs, b < 256 := by
  induction cs with
  | nil => intro b hb; cases hb
  | cons c rest ih =>
    intro b hb
    rcases List.mem_append.mp hb with h | h
    · exact utf8EncodeChar_lt c b h
    · exact ih b h

/-- Stripping the leftmost occurrence of a pattern that sits at the head. -/
theorem replaceFirstL_strip (pat rest : List Char) (hp : pat ≠ []) :
    replaceFirstL pat [] (pat ++ rest) = rest := by
  cases pat with
  | nil => exact absurd rfl hp
  | cons p ps =>
    have hpre : (p :: ps).isPrefixOf ((p :: ps) ++ rest) = true :=
      List.isPrefixOf_iff_prefix.mpr (List.prefix_append _ _)
    simp only [List.cons_append] at hpre ⊢
    rw [replaceFirstL]
    simp only [List.isEmpty_cons, Bool.false_eq_true, if_false]
    rw [if_pos hpre]
    rw [List.nil_append]
    rw [show p :: (ps ++ rest) = (p :: ps) ++ rest from rfl]
    exact List.drop_left _ _

/-- C10: decoding a shortcut id — strip the `shortcut-` prefix, base64
decode, read back as UTF-8 — recovers exactly the file path the id was
built from, so `deleteShortcut` targets the file the record came from. -/
theorem C10_shortcut_id_roundtrip (p : String) :
    decodeShortcutId (mkShortcutId p) = p := by
  have h1 : (jsReplaceFirst (mkShortcutId p) "shortcut-" "").data
      = b64EncodeL (utf8EncodeL p.data) := by
    show replaceFirstL "shortcut-".data []
        (("shortcut-" ++ String.mk (b64EncodeL (utf8EncodeL p.data))).data)
      = b64EncodeL (utf8EncodeL p.data)
    rw [String.data_append]
    exact replaceFirstL_strip _ _ (by decide)
  unfold decodeShortcutId
  rw [h1, b64_roundtrip _ (utf8EncodeL_lt p.data), utf8_roundtrip]
